import Mathlib

unseal Rat.add Rat.sub Rat.mul Rat.inv

/-!
# FinKit transaction pipeline — shallow embedding

A shallow embedding of the FinKit transaction-normalization pipeline
(parsing → anonymization → categorization → internal-transfer detection →
recurrence detection) together with proofs about the spec's claims.

Modelling conventions:
* JS `number` is modelled as `ℚ` (all values reached by the claims are exact
  decimals; floating-point rounding plays no role in the claimed properties).
* JS `NaN` in the recurrence-detector arithmetic is modelled as `Option ℚ`
  with `none` = NaN; comparisons against `none` are `false`, as in JS.
* JS strings are Lean `String`s; case folding and `\b`/`\s`/`\w` regex classes
  are modelled on ASCII (exactly the character set exercised by the code's
  patterns and by every concrete input below).
* JS `Map`/`Set` are association lists / lists; `Map.set` overwrites an
  existing key in place, `Set` is used only through membership.
* JS exceptions (`'*'.repeat` with a negative count throws `RangeError`) are
  modelled with `Except String`.
-/

namespace FinKit

/-! ## Small string / list utilities -/

/-- ASCII lower-casing (`String.prototype.toLowerCase` on the ASCII range). -/
def toLowerAscii (c : Char) : Char :=
  if 'A' ≤ c ∧ c ≤ 'Z' then Char.ofNat (c.toNat + 32) else c

def lowerStr (s : String) : String :=
  String.mk (s.toList.map toLowerAscii)

/-- ASCII digit test (`\d`). -/
def isDigitChar (c : Char) : Bool := '0' ≤ c && c ≤ '9'

/-- JS `\s` restricted to ASCII whitespace. -/
def isJsWhitespace (c : Char) : Bool :=
  c = ' ' || c = '\t' || c = '\n' || c = '\r' || c = '\x0b' || c = '\x0c'

/-- JS word character (`\w` = `[A-Za-z0-9_]`). -/
def isWordChar (c : Char) : Bool :=
  ('a' ≤ c && c ≤ 'z') || ('A' ≤ c && c ≤ 'Z') || isDigitChar c || c = '_'

/-- `needle` occurs as a contiguous sublist of `hay`
(JS `String.prototype.includes`; `''.includes` of anything empty is `true`). -/
def listIsInfix (needle : List Char) : List Char → Bool
  | [] => needle.isEmpty
  | c :: t => needle.isPrefixOf (c :: t) || listIsInfix needle t

/-- `a.includes(b)` on strings. -/
def strIncludes (hay needle : String) : Bool :=
  listIsInfix needle.toList hay.toList

/-- Association-list lookup (JS `Map.prototype.get`, `obj[key]`). -/
def assocGet (m : List (String × α)) (k : String) : Option α :=
  (m.find? (fun p => p.1 = k)).map (·.2)

/-- JS `Map.prototype.set`: overwrite the existing entry in place, else append. -/
def mapSet (m : List (String × α)) (k : String) (v : α) : List (String × α) :=
  if m.any (fun p => p.1 = k) then
    m.map (fun p => if p.1 = k then (k, v) else p)
  else m ++ [(k, v)]

/-- First `some` produced by `f` along the list. -/
def firstSome? (f : α → Option β) : List α → Option β
  | [] => none
  | a :: t => match f a with | some b => some b | none => firstSome? f t

/-- JS truthiness of an optional string: `undefined` and `""` are falsy. -/
def strTruthy : Option String → Bool
  | some s => !s.isEmpty
  | none => false

/-- JS `a || b` on optional strings. -/
def strOr (a : Option String) (b : String) : String :=
  match a with
  | some s => if s.isEmpty then b else s
  | none => b

/-- Split on a single-character separator (`String.prototype.split(c)`;
agrees with `String.splitOn` for a one-character separator). -/
def splitOnChar (sep : Char) : List Char → List (List Char)
  | [] => [[]]
  | c :: t =>
    let r := splitOnChar sep t
    if c = sep then [] :: r
    else
      match r with
      | [] => [[c]]
      | h :: t2 => (c :: h) :: t2

def strSplitOnChar (s : String) (sep : Char) : List String :=
  (splitOnChar sep s.toList).map String.mk

/-- JS truthiness of an optional boolean: only `true` is truthy. -/
def boolTruthy : Option Bool → Bool
  | some b => b
  | none => false

/-- `String.prototype.lastIndexOf` for a single character (`-1` if absent). -/
def lastIndexOf (cs : List Char) (c : Char) : Int :=
  match (((cs.enum.filter (fun p => p.2 = c)).map (·.1) : List Nat)).getLast? with
  | some n => (n : Int)
  | none => -1

/-- `String.prototype.replace(c, d)` with a plain one-character string:
replaces only the first occurrence. -/
def replaceFirst : List Char → Char → Char → List Char
  | [], _, _ => []
  | c :: t, a, b => if c = a then b :: t else c :: replaceFirst t a b

/-- Digits to a natural number. -/
def digitsToNat (cs : List Char) : Nat :=
  cs.foldl (fun acc c => acc * 10 + (c.toNat - '0'.toNat)) 0

/-- `String.prototype.padStart(2, '0')`. -/
def pad2 (s : String) : String :=
  if s.length ≥ 2 then s else
    String.mk (List.replicate (2 - s.length) '0') ++ s

/-! ## JS `parseFloat` (decimal forms)

Modelled for the decimal shapes reachable from `parseNumber` (digits, `.`,
`-`, `+`; parsing stops at the first unusable character; exponent notation is
not reachable there). `none` models `NaN`. -/

def parseFloatQ? (cs : List Char) : Option ℚ :=
  let (sign, rest) : ℚ × List Char :=
    match cs with
    | '-' :: t => (-1, t)
    | '+' :: t => (1, t)
    | _ => (1, cs)
  let ip := rest.takeWhile isDigitChar
  let rest1 := rest.dropWhile isDigitChar
  let fp :=
    match rest1 with
    | '.' :: t => t.takeWhile isDigitChar
    | _ => []
  if ip.isEmpty && fp.isEmpty then none
  else some (sign * ((digitsToNat ip : ℚ) + (digitsToNat fp : ℚ) / (10 ^ fp.length)))

/-- `parseFloat(s) || 0` (NaN collapses to `0`). -/
def parseFloatOr0 (cs : List Char) : ℚ :=
  (parseFloatQ? cs).getD 0

/-! ## Parser: `parseNumber` (lib/parser.ts) -/

/-- `parseNumber` from the parser: disambiguates decimal-comma vs decimal-dot
by the positions of the last `.` and last `,`. -/
def parseNumber (value : String) : ℚ :=
  if value.isEmpty then 0
  else
    let cleaned := value.toList.filter
      (fun c => !(c = '"' || c = '\'' || isJsWhitespace c))
    let lastDot := lastIndexOf cleaned '.'
    let lastComma := lastIndexOf cleaned ','
    if lastDot = -1 && lastComma = -1 then
      parseFloatOr0 (cleaned.filter (fun c => isDigitChar c || c = '-'))
    else
      let cleaned2 :=
        if lastDot > lastComma then
          cleaned.filter (· ≠ ',')
        else if lastComma > lastDot then
          replaceFirst (cleaned.filter (· ≠ '.')) ',' '.'
        else if lastComma ≠ -1 then
          let afterComma := cleaned.drop (lastComma.toNat + 1)
          if afterComma.length = 2 && afterComma.all isDigitChar then
            replaceFirst cleaned ',' '.'
          else
            cleaned.filter (· ≠ ',')
        else cleaned
      parseFloatOr0 (cleaned2.filter (fun c => isDigitChar c || c = '.' || c = '-'))

/-! ## Parser: `parseDate` (lib/parser.ts)

The final fallback `new Date(value)` performs engine-specific generic date
parsing; it is abstracted as an oracle `jsDateFallback` returning `some iso`
(the `toISOString().slice(0, 10)` result) for strings the engine can parse
and `none` for an Invalid Date. -/

/-- `^(\d{1,2})\.(\d{1,2})\.(\d{4})$` decomposition. -/
def germanDate? (s : String) : Option (String × String × String) :=
  match strSplitOnChar s '.' with
  | [d, m, y] =>
    if 1 ≤ d.length && d.length ≤ 2 && d.toList.all isDigitChar &&
       1 ≤ m.length && m.length ≤ 2 && m.toList.all isDigitChar &&
       y.length = 4 && y.toList.all isDigitChar then
      some (d, m, y)
    else none
  | _ => none

/-- `^(\d{4})-(\d{2})-(\d{2})` prefix test. -/
def isoDatePrefix (s : String) : Bool :=
  match s.toList with
  | a :: b :: c :: d :: '-' :: e :: f :: '-' :: g :: h :: _ =>
    [a, b, c, d, e, f, g, h].all isDigitChar
  | _ => false

/-- `^(\d{1,2})\/(\d{1,2})\/(\d{4})$` decomposition. -/
def usDate? (s : String) : Option (String × String × String) :=
  match strSplitOnChar s '/' with
  | [m, d, y] =>
    if 1 ≤ m.length && m.length ≤ 2 && m.toList.all isDigitChar &&
       1 ≤ d.length && d.length ≤ 2 && d.toList.all isDigitChar &&
       y.length = 4 && y.toList.all isDigitChar then
      some (m, d, y)
    else none
  | _ => none

/-- `parseDate`: German `DD.MM.YYYY`, ISO prefix, US `MM/DD/YYYY`, then the
generic `new Date` fallback; an unparseable value is returned unchanged. -/
def parseDate (jsDateFallback : String → Option String) (value : String) : String :=
  if value.isEmpty then ""
  else match germanDate? value with
  | some (d, m, y) => y ++ "-" ++ pad2 m ++ "-" ++ pad2 d
  | none =>
    if isoDatePrefix value then String.mk (value.toList.take 10)
    else match usDate? value with
    | some (m, d, y) => y ++ "-" ++ pad2 m ++ "-" ++ pad2 d
    | none =>
      match jsDateFallback value with
      | some iso => iso
      | none => value

/-- `parseTransferFlag`. -/
def parseTransferFlag (value : String) : Bool :=
  if value.isEmpty then false
  else
    let lower := lowerStr value
    lower = "ja" || lower = "yes" || lower = "true" || lower = "1"

end FinKit

namespace FinKit

/-! ## Parser: column tables and `processRows` (lib/parser.ts) -/

def FINANZGURU_COLUMNS : List (String × String) := [
  ("Buchungstag", "date"),
  ("Referenzkonto", "referenceAccount"),
  ("Name Referenzkonto", "referenceAccountName"),
  ("Betrag", "amount"),
  ("Kontostand", "balance"),
  ("Waehrung", "currency"),
  ("Währung", "currency"),
  ("Beguenstigter/Auftraggeber", "recipient"),
  ("Begünstigter/Auftraggeber", "recipient"),
  ("IBAN Beguenstigter/Auftraggeber", "recipientIban"),
  ("IBAN Begünstigter/Auftraggeber", "recipientIban"),
  ("Verwendungszweck", "description"),
  ("Analyse-Hauptkategorie", "category"),
  ("Analyse-Unterkategorie", "subcategory"),
  ("Analyse-Umbuchung", "isTransfer")]

def N26_COLUMNS : List (String × String) := [
  ("Datum", "date"),
  ("Empfänger", "recipient"),
  ("Kontonummer", "recipientIban"),
  ("Transaktionstyp", "category"),
  ("Verwendungszweck", "description"),
  ("Betrag (EUR)", "amount"),
  ("Betrag (Fremdwährung)", "foreignAmount"),
  ("Fremdwährung", "foreignCurrency"),
  ("Wechselkurs", "exchangeRate"),
  ("Date", "date"),
  ("Payee", "recipient"),
  ("Account number", "recipientIban"),
  ("Transaction type", "category"),
  ("Payment reference", "description"),
  ("Amount (EUR)", "amount"),
  ("Amount (Foreign Currency)", "foreignAmount"),
  ("Type Foreign Currency", "foreignCurrency"),
  ("Exchange Rate", "exchangeRate")]

def DKB_COLUMNS : List (String × String) := [
  ("Buchungstag", "date"),
  ("Wertstellung", "valueDate"),
  ("Buchungstext", "category"),
  ("Auftraggeber / Begünstigter", "recipient"),
  ("Verwendungszweck", "description"),
  ("Kontonummer", "recipientIban"),
  ("BLZ", "bankCode"),
  ("Betrag (EUR)", "amount"),
  ("Gläubiger-ID", "creditorId"),
  ("Mandatsreferenz", "mandateRef"),
  ("Kundenreferenz", "customerRef")]

def ING_COLUMNS : List (String × String) := [
  ("Buchung", "date"),
  ("Valuta", "valueDate"),
  ("Auftraggeber/Empfänger", "recipient"),
  ("Buchungstext", "category"),
  ("Verwendungszweck", "description"),
  ("Saldo", "balance"),
  ("Währung", "currency"),
  ("Betrag", "amount")]

def SPARKASSE_COLUMNS : List (String × String) := [
  ("Buchungstag", "date"),
  ("Valutadatum", "valueDate"),
  ("Buchungstext", "category"),
  ("Verwendungszweck", "description"),
  ("Beguenstigter/Zahlungspflichtiger", "recipient"),
  ("Kontonummer", "recipientIban"),
  ("BLZ", "bankCode"),
  ("Betrag", "amount"),
  ("Waehrung", "currency")]

def ENGLISH_COLUMNS : List (String × String) := [
  ("Date", "date"),
  ("Booking Date", "date"),
  ("Transaction Date", "date"),
  ("Value Date", "valueDate"),
  ("Amount", "amount"),
  ("Currency", "currency"),
  ("Description", "description"),
  ("Recipient", "recipient"),
  ("Payee", "recipient"),
  ("IBAN", "recipientIban"),
  ("Category", "category"),
  ("Reference", "referenceAccount"),
  ("Memo", "description"),
  ("Notes", "description")]

def ALL_COLUMN_MAPPINGS : List (List (String × String)) :=
  [FINANZGURU_COLUMNS, N26_COLUMNS, DKB_COLUMNS, ING_COLUMNS,
   SPARKASSE_COLUMNS, ENGLISH_COLUMNS]

/-- `normalizeColumnName`: first mapping that knows the header wins, else a
lowercase slug (`[^a-z0-9]` → `_`). -/
def normalizeColumnName (header : String) : String :=
  match firstSome? (fun m => assocGet m header) ALL_COLUMN_MAPPINGS with
  | some n => n
  | none =>
    String.mk ((lowerStr header).toList.map
      (fun c => if ('a' ≤ c && c ≤ 'z') || isDigitChar c then c else '_'))

/-- One CSV/Excel row: field-name ↦ cell-string map. -/
def Row := List (String × String)

/-- The intermediate `mapped` object assembled by `processRows`. Only the
fields later read into a `RawTransaction` are tracked; the `default` branch
of the source's `switch` stores other columns on `mapped` but they are never
read back. -/
structure MappedRow where
  date : Option String := none
  amount : Option ℚ := none
  isTransfer : Option Bool := none
  currency : Option String := none
  description : Option String := none
  category : Option String := none
  subcategory : Option String := none
  recipient : Option String := none
  recipientIban : Option String := none
  referenceAccount : Option String := none
  referenceAccountName : Option String := none
deriving Repr, DecidableEq

/-- One `switch (normalized)` step of `processRows`. A header present in
`headers` but absent from the row gives `value = undefined`, which
`parseDate`/`parseNumber`/`parseTransferFlag` coerce exactly like `""`. -/
def applyColumn (fb : String → Option String) (m : MappedRow)
    (normalized : String) (value : Option String) : MappedRow :=
  match normalized with
  | "date" => { m with date := some (parseDate fb (value.getD "")) }
  | "amount" => { m with amount := some (parseNumber (value.getD "")) }
  | "isTransfer" => { m with isTransfer := some (parseTransferFlag (value.getD "")) }
  | "currency" => { m with currency := some (strOr value "EUR") }
  | "description" => { m with description := value }
  | "category" => { m with category := value }
  | "subcategory" => { m with subcategory := value }
  | "recipient" => { m with recipient := value }
  | "recipientIban" => { m with recipientIban := value }
  | "referenceAccount" => { m with referenceAccount := value }
  | "referenceAccountName" => { m with referenceAccountName := value }
  | _ => m

end FinKit

namespace FinKit

/-! ## Data model (types.ts) -/

inductive TxType | income | expense
deriving Repr, DecidableEq

inductive Frequency | weekly | monthly | quarterly | yearly
deriving Repr, DecidableEq

inductive CategorySource | rule | ai | manual | learned
deriving Repr, DecidableEq

/-- `RawTransaction` (types.ts). -/
structure RawTransaction where
  date : String
  description : String
  amount : ℚ
  currency : String
  category : Option String := none
  subcategory : Option String := none
  recipient : Option String := none
  recipientIban : Option String := none
  referenceAccount : Option String := none
  referenceAccountName : Option String := none
  isTransfer : Option Bool := none
  rawData : List (String × String) := []
deriving Repr, DecidableEq

/-- `Transaction` (types.ts), `extends RawTransaction`. -/
structure Transaction extends RawTransaction where
  id : String
  type : TxType
  merchant : Option String := none
  isRecurring : Option Bool := none
  recurringFrequency : Option Frequency := none
  isExcluded : Option Bool := none
  categorySource : Option CategorySource := none
  doubleBookingMatch : Option String := none
deriving Repr, DecidableEq

/-! ## Dates as day numbers

`new Date("YYYY-MM-DD")` on an ISO date string is UTC midnight; subtraction
of such dates is a whole number of days times 86 400 000 ms.  `isoToDays`
turns an ISO date string into days since the Unix epoch (standard civil-date
arithmetic); `none` models an Invalid Date (non-ISO strings — the generic
engine heuristics are not reachable from any concrete input below). -/

/-- Days from civil date (proleptic Gregorian), days since 1970-01-01. -/
def daysFromCivil (y m d : Int) : Int :=
  let y' := if m ≤ 2 then y - 1 else y
  let era := Int.fdiv y' 400
  let yoe := y' - era * 400
  let mp := Int.fdiv (m + 9) 12 * 12
  let m' := m + 9 - mp
  let doy := Int.fdiv (153 * m' + 2) 5 + d - 1
  let doe := yoe * 365 + Int.fdiv yoe 4 - Int.fdiv yoe 100 + doy
  era * 146097 + doe - 719468

def parseIso? (s : String) : Option (Int × Int × Int) :=
  match strSplitOnChar s '-' with
  | [y, m, d] =>
    if y.length = 4 && y.toList.all isDigitChar &&
       m.length = 2 && m.toList.all isDigitChar &&
       d.length = 2 && d.toList.all isDigitChar then
      some ((digitsToNat y.toList : Int), (digitsToNat m.toList : Int),
            (digitsToNat d.toList : Int))
    else none
  | _ => none

def isoToDays (s : String) : Option Int :=
  (parseIso? s).map (fun (y, m, d) => daysFromCivil y m d)

/-- `new Date(s).getTime()` for an ISO date string, in milliseconds
(`none` = NaN). -/
def isoToMs (s : String) : Option Int :=
  (isoToDays s).map (· * 86400000)

/-! ## Parser: `processRows` (lib/parser.ts) -/

/-- The body of the `for (const row of rows)` loop: builds `mapped` from the
column map and keeps the row only when `mapped.date` is truthy and
`mapped.amount` is defined. -/
def processRow (fb : String → Option String) (columnMap : List (String × String))
    (row : Row) : Option RawTransaction :=
  if (row.map (·.2)).all (fun v => (v.toList.dropWhile isJsWhitespace).isEmpty ||
      v.isEmpty) then
    none
  else
    let mapped := columnMap.foldl
      (fun m (p : String × String) => applyColumn fb m p.2 (assocGet row p.1))
      {}
    if strTruthy mapped.date && mapped.amount.isSome then
      some {
        date := mapped.date.getD "",
        description := strOr mapped.description "",
        amount := mapped.amount.getD 0,
        currency := strOr mapped.currency "EUR",
        category := mapped.category,
        subcategory := mapped.subcategory,
        recipient := mapped.recipient,
        recipientIban := mapped.recipientIban,
        referenceAccount := mapped.referenceAccount,
        referenceAccountName := mapped.referenceAccountName,
        isTransfer := mapped.isTransfer,
        rawData := row }
    else none

/-- Sort comparator `new Date(b.date) - new Date(a.date)` (descending);
an Invalid Date is treated as epoch for ordering purposes (the comparator is
NaN in JS, which leaves relative order engine-defined; no claim depends on
it). -/
def dateMsOr0 (s : String) : Int := (isoToMs s).getD 0

/-- `processRows`: per-row mapping/validation, then sort by date descending.
The source's `Map` over headers is the list `headers.map (h, normalize h)`;
duplicate headers would produce identical entries. -/
def processRows (fb : String → Option String) (rows : List Row)
    (headers : List String) : List RawTransaction :=
  let columnMap := headers.map (fun h => (h, normalizeColumnName h))
  let transactions := rows.filterMap (processRow fb columnMap)
  List.insertionSort (fun a b => dateMsOr0 b.date ≤ dateMsOr0 a.date) transactions

end FinKit

namespace FinKit

/-! ## A small regex engine

Just enough of JS `RegExp` for the patterns appearing in the source:
literals, character classes, alternation, sequencing, greedy `?`, greedy
`*`/`+`/`{m,n}` over character classes, and the word boundary `\b`.
`runRE` returns every way the pattern can match a prefix of the input, in JS
backtracking preference order (greedy quantifiers consume first), so the head
of the list is the match JS would pick.  `prev` is the character immediately
before the current position (`none` at the start), needed for `\b`. -/

inductive RE where
  | eps
  | lit (c : Char)
  | cls (p : Char → Bool)
  | seq (a b : RE)
  | alt (a b : RE)
  | opt (r : RE)
  | starCls (p : Char → Bool)
  | wb

/-- Character comparison; `ci` is the `/i` flag (ASCII folding). -/
def charEq (ci : Bool) (x c : Char) : Bool :=
  if ci then toLowerAscii x = toLowerAscii c else x = c

/-- `\b`: exactly one side of the position is a word character
(string start/end count as non-word). -/
def atBoundary (prev : Option Char) (s : List Char) : Bool :=
  let l := match prev with | some c => isWordChar c | none => false
  let r := match s with | c :: _ => isWordChar c | [] => false
  l != r

/-- Greedy consumption by a character class (`p*`): longest first. -/
def runStar (ci : Bool) (p : Char → Bool) :
    Option Char → List Char → List (Option Char × List Char)
  | prev, [] => [(prev, [])]
  | prev, x :: t =>
    (if p x then runStar ci p (some x) t else []) ++ [(prev, x :: t)]

def runRE (ci : Bool) : RE → Option Char → List Char → List (Option Char × List Char)
  | .eps, prev, s => [(prev, s)]
  | .lit c, _, [] => (fun _ => []) c
  | .lit c, _, x :: t => if charEq ci x c then [(some x, t)] else []
  | .cls p, _, [] => (fun _ => []) p
  | .cls p, _, x :: t => if p x then [(some x, t)] else []
  | .seq a b, prev, s =>
    (runRE ci a prev s).flatMap (fun q => runRE ci b q.1 q.2)
  | .alt a b, prev, s => runRE ci a prev s ++ runRE ci b prev s
  | .opt r, prev, s => runRE ci r prev s ++ [(prev, s)]
  | .starCls p, prev, s => runStar ci p prev s
  | .wb, prev, s => if atBoundary prev s then [(prev, s)] else []


def reFind (ci : Bool) (re : RE) :
    Option Char → List Char → List Char →
    Option (List Char × List Char × List Char)
  | prev, s, preRev =>
    match (runRE ci re prev s).head? with
    | some q => some (preRev, s.take (s.length - q.2.length), q.2)
    | none =>
      match s with
      | [] => none
      | c :: t => reFind ci re (some c) t (c :: preRev)

/-- `RegExp.prototype.test`. -/
def reTest (ci : Bool) (re : RE) (s : String) : Bool :=
  (reFind ci re none s.toList []).isSome

/-- `String.prototype.replace(re, f)` with the global flag: replace every
match left to right.  The recursion is fuelled by the input length: every
step consumes at least one character (none of the source patterns can match
the empty string; a hypothetical empty match stops the loop where JS would
skip one character), so `length + 1` fuel never runs out. -/
def reReplaceGo (ci : Bool) (re : RE) (f : List Char → List Char) :
    Nat → Option Char → List Char → List Char
  | 0, _, s => s
  | fuel + 1, prev, s =>
    match reFind ci re prev s [] with
    | none => s
    | some (preRev, matched, rest) =>
      if matched.isEmpty then s
      else preRev.reverse ++ f matched ++
        reReplaceGo ci re f fuel matched.getLast? rest

def reReplaceList (ci : Bool) (re : RE) (f : List Char → List Char)
    (s : List Char) : List Char :=
  reReplaceGo ci re f (s.length + 1) none s

def reReplace (ci : Bool) (re : RE) (f : List Char → List Char) (s : String) :
    String :=
  String.mk (reReplaceList ci re f s.toList)

/-- `String.prototype.match(re)`: the first matched substring, if any. -/
def reMatchFirst (ci : Bool) (re : RE) (s : String) : Option String :=
  (reFind ci re none s.toList []).map (fun r => String.mk r.2.1)

/-! ### Pattern construction helpers -/

def reSeqL : List RE → RE
  | [] => .eps
  | [r] => r
  | r :: t => .seq r (reSeqL t)

def reAltL : List RE → RE
  | [] => .cls (fun _ => false)
  | [r] => r
  | r :: t => .alt r (reAltL t)

/-- A literal string. -/
def reStr (s : String) : RE := reSeqL (s.toList.map .lit)

/-- `p{n}`. -/
def clsRep (p : Char → Bool) (n : Nat) : RE :=
  reSeqL (List.replicate n (.cls p))

/-- `p{min,min+extra}` (greedy). -/
def clsRepRange (p : Char → Bool) (min extra : Nat) : RE :=
  .seq (clsRep p min) (reSeqL (List.replicate extra (.opt (.cls p))))

/-- `p+` (greedy). -/
def clsPlus (p : Char → Bool) : RE := .seq (.cls p) (.starCls p)

/-- `\b(...)\b` around an alternation. -/
def wordAlt (rs : List RE) : RE := .seq .wb (.seq (reAltL rs) .wb)


/-! ## Categorizer (lib/categorizer.ts) -/

def toUpperAscii (c : Char) : Char :=
  if 'a' ≤ c ∧ c ≤ 'z' then Char.ofNat (c.toNat - 32) else c

/-- `\s*` (greedy). -/
def ws0 : RE := .starCls isJsWhitespace

/-- `\s+` (greedy). -/
def ws1 : RE := .seq (.cls isJsWhitespace) ws0

/-- `a\s*b`. -/
def reSp (a b : String) : RE := reSeqL [reStr a, ws0, reStr b]

/-- `TRANSFER_PATTERNS` (all `/i`). -/
def TRANSFER_PATTERNS : List RE := [
  reSeqL [.wb, reStr "sent", ws1, reStr "from", .wb],
  reSeqL [.wb, reStr "moved", ws1, .alt (reStr "to") (reStr "from"), .wb],
  reSeqL [.wb, reStr "überweisung", .opt (.lit 'e'), .opt (.lit 'n'), .wb],
  reSeqL [.wb, reStr "umbuchung", .wb]]

structure MerchantRule where
  pattern : RE
  category : String
  merchant : Option String := none

/-- `MERCHANT_RULES` (all `/i`), in source order. -/
def MERCHANT_RULES : List MerchantRule := [
  ⟨wordAlt [reStr "rewe", reStr "aldi", reStr "lidl", reStr "edeka", reStr "netto",
    reStr "penny", reStr "kaufland", reStr "real"], "Groceries", none⟩,
  ⟨wordAlt [reSeqL [reStr "dm", .cls (fun c => c = '-' || c = ' '), reStr "drogerie"],
    reStr "rossmann", reStr "müller"], "Groceries", none⟩,
  ⟨wordAlt [reStr "lebensmittel"], "Groceries", none⟩,
  ⟨wordAlt [reStr "lieferando", reSp "uber" "eats", reStr "wolt", reSp "delivery" "hero"],
    "Eating Out", some "Delivery Service"⟩,
  ⟨wordAlt [reStr "mcdonalds", reSp "burger" "king", reStr "subway", reStr "kfc",
    reStr "starbucks"], "Eating Out", none⟩,
  ⟨wordAlt [reStr "restaurant", reStr "cafe", reStr "coffee", reStr "bistro",
    reStr "pizza", reStr "kebab", reStr "sushi"], "Eating Out", none⟩,
  ⟨wordAlt [reStr "lieferservice"], "Eating Out", none⟩,
  ⟨wordAlt [reStr "netflix", reStr "spotify", reStr "disney+", reSp "amazon" "prime",
    reSp "apple" "music"], "Subscriptions", none⟩,
  ⟨wordAlt [reStr "playstation", reStr "xbox", reStr "steam", reStr "nintendo",
    reSp "epic" "games"], "Personal Entertainment", none⟩,
  ⟨wordAlt [reStr "apple", reStr "itunes", reSp "google" "play"],
    "Personal Entertainment", none⟩,
  ⟨wordAlt [reSp "sony" "interactive"], "Personal Entertainment", none⟩,
  ⟨wordAlt [reStr "in-app"], "Personal Entertainment", none⟩,
  ⟨wordAlt [reStr "amazon", reStr "zalando", reStr "otto", reStr "ebay",
    reStr "mediamarkt", reStr "saturn"], "Shopping", some "Online Shopping"⟩,
  ⟨wordAlt [reStr "h&m", reStr "zara", reStr "primark", reStr "c&a",
    reSp "tk" "maxx", reStr "zeeman"], "Shopping", none⟩,
  ⟨wordAlt [reStr "ikea", reStr "möbel"], "Shopping", none⟩,
  ⟨wordAlt [reStr "flaconi", reStr "douglas"], "Shopping", none⟩,
  ⟨wordAlt [reStr "miete", reStr "rent", reStr "wohnung", reStr "apartment"],
    "Rent", none⟩,
  ⟨wordAlt [reSp "deutsche" "bahn", .seq (reStr "db") (.cls isJsWhitespace),
    reStr "bvg", reStr "mvv", reStr "hvv", reStr "rmv", reStr "vbb"],
    "Public Transport", none⟩,
  ⟨wordAlt [reStr "uber", reStr "bolt", reStr "freenow", reStr "taxi"],
    "Public Transport", none⟩,
  ⟨wordAlt [reStr "shell", reStr "aral", reStr "esso", reStr "total",
    reStr "tankstelle"], "Car", none⟩,
  ⟨wordAlt [reStr "parkhaus", reStr "parking"], "Car", none⟩,
  ⟨wordAlt [reStr "führerschein"], "Car", none⟩,
  ⟨wordAlt [reStr "rundfunk", reStr "ard", reStr "zdf", reStr "beitragsservice"],
    "Radio Tax", none⟩,
  ⟨wordAlt [reStr "telekom", reStr "vodafone", reStr "o2", reStr "congstar",
    reSp "aldi" "talk"], "Internet", none⟩,
  ⟨wordAlt [reStr "strom", reStr "vattenfall", reStr "eon", reStr "enercity",
    reStr "stadtwerke"], "Electricity", none⟩,
  ⟨wordAlt [reStr "allianz", reStr "ergo", reStr "huk", reStr "axa",
    reStr "versicherung", reStr "getsafe"], "Insurance", none⟩,
  ⟨wordAlt [reStr "apotheke", reStr "pharmacy", reStr "arzt", reStr "doctor",
    reStr "klinik", reStr "krankenhaus"], "Health & Wellbeing", none⟩,
  ⟨wordAlt [reStr "fitnessstudio", reStr "gym", reStr "mcfit",
    reSp "fitness" "first"], "Health & Wellbeing", none⟩,
  ⟨wordAlt [reSp "scalable" "capital", reSp "trade" "republic", reStr "comdirect",
    reSp "ing" "diba"], "Investment", none⟩,
  ⟨wordAlt [reStr "sparplan", reStr "etf", reStr "depot", reStr "kapitalanlage"],
    "Investment", none⟩,
  ⟨wordAlt [reStr "lohn", reStr "gehalt", reStr "salary", reStr "wage"],
    "Income", none⟩,
  ⟨wordAlt [reStr "erstattung", reStr "refund", reStr "rückerstattung"],
    "Income", none⟩,
  ⟨wordAlt [reStr "finanzamt"], "Income", none⟩,
  ⟨wordAlt [reStr "lufthansa", reStr "ryanair", reStr "easyjet",
    reStr "booking.com", reStr "airbnb", reStr "hotel"], "Travel", none⟩,
  ⟨wordAlt [reStr "flug", reStr "flight", reStr "reise", reStr "urlaub"],
    "Travel", none⟩]

/-- `String.prototype.trim` (ASCII whitespace). -/
def trimStr (s : String) : String :=
  String.mk (((s.toList.dropWhile isJsWhitespace).reverse.dropWhile
    isJsWhitespace).reverse)

/-- `.replace(/\s+/g, ' ')`. -/
def collapseWsGo : Bool → List Char → List Char
  | _, [] => []
  | prevWs, c :: t =>
    if isJsWhitespace c then
      if prevWs then collapseWsGo true t else ' ' :: collapseWsGo true t
    else c :: collapseWsGo false t

/-- `normalizeMerchant`: lowercase, trim, drop `[^a-z0-9\s]`, collapse runs
of whitespace. -/
def normalizeMerchant (merchant : String) : String :=
  let t := trimStr (lowerStr merchant)
  let u := t.toList.filter
    (fun c => ('a' ≤ c && c ≤ 'z') || isDigitChar c || isJsWhitespace c)
  String.mk (collapseWsGo false u)

/-- First-occurrence dedup (`[...new Set(xs)]`). -/
def dedup (l : List String) : List String :=
  l.foldl (fun acc s => if acc.contains s then acc else acc ++ [s]) []

/-- `getMerchantVariations`. -/
def getMerchantVariations (text : String) : List String :=
  let normalized := normalizeMerchant text
  let suffixes := [" gmbh", " ag", " kg", " ltd", " inc", " co", " ug", " mbh",
    " gbr", " ohg", " se"]
  let withSuffixes := [normalized] ++ suffixes.filterMap (fun suffix =>
    if suffix.toList.isSuffixOf normalized.toList then
      some (trimStr (String.mk (normalized.toList.take
        (normalized.length - suffix.length))))
    else none)
  let prefixes := ["paypal ", "klarna ", "amazon ", "ec ", "visa "]
  let withPrefixes := withSuffixes ++ prefixes.filterMap (fun pre =>
    if pre.toList.isPrefixOf normalized.toList then
      some (trimStr (String.mk (normalized.toList.drop pre.length)))
    else none)
  dedup (withPrefixes.filter (fun v => v.length > 2))

/-- `if (x) return x` — a looked-up category is returned only when truthy. -/
def truthyHit : Option String → Option String
  | some s => if s.isEmpty then none else some s
  | none => none

/-- Steps 1 and 2 of `findLearnedCategory`: exact lookup of the normalized
merchant / recipient (a falsy field or looked-up value is a miss). -/
def learnedLookupStep (learned : List (String × String)) (o : Option String) :
    Option String :=
  if strTruthy o then
    truthyHit (assocGet learned (normalizeMerchant (o.getD "")))
  else none

/-- Step 3 of `findLearnedCategory`: a learned merchant (longer than 3)
contained in the normalized description. -/
def learnedDescStep (learned : List (String × String))
    (descNormalized : String) : Option String :=
  (learned.find? (fun p =>
    strIncludes descNormalized p.1 && p.1.length > 3)).map (·.2)

/-- The body of step 4's inner loop: exact lookup of a variation, then
mutual substring containment against each stored merchant. -/
def learnedVariationStep (learned : List (String × String))
    (variation : String) : Option String :=
  match truthyHit (assocGet learned variation) with
  | some c => some c
  | none =>
    (learned.find? (fun p =>
      (strIncludes variation p.1 && p.1.length > 3) ||
      (strIncludes p.1 variation && variation.length > 3))).map (·.2)

/-- `findLearnedCategory`: exact merchant, exact recipient, learned-merchant
containment in the description, then variation matching. -/
def findLearnedCategory (learned : List (String × String)) (tx : Transaction) :
    Option String :=
  if learned.isEmpty then none
  else
    match learnedLookupStep learned tx.merchant with
    | some c => some c
    | none =>
    match learnedLookupStep learned tx.recipient with
    | some c => some c
    | none =>
    match learnedDescStep learned (normalizeMerchant tx.description) with
    | some c => some c
    | none =>
    firstSome? (fun text =>
      firstSome? (learnedVariationStep learned) (getMerchantVariations text))
      (([tx.merchant, tx.recipient, some tx.description].filter
        strTruthy).map (·.getD ""))

/-- `extractMerchant`: the matched substring, first letter upper-cased in
front of the lower-cased remainder. -/
def extractMerchant (text : String) (pattern : RE) : Option String :=
  match reMatchFirst true pattern text with
  | some m =>
    match m.toList with
    | [] => some ""
    | c :: t => some (String.mk (toUpperAscii c :: t.map toLowerAscii))
  | none => none

def GERMAN_CATEGORY_MAP : List (String × String) := [
  ("Essen & Trinken/Lebensmittel", "Groceries"),
  ("Essen & Trinken/Lieferservice", "Eating Out"),
  ("Essen & Trinken", "Groceries"),
  ("Wohnen/Rundfunkgebuehren", "Radio Tax"),
  ("Wohnen/Internet & Telefon", "Internet"),
  ("Wohnen/Miete", "Rent"),
  ("Wohnen/Strom", "Electricity"),
  ("Wohnen", "Rent"),
  ("Lifestyle/Shopping", "Shopping"),
  ("Lifestyle/Bekleidung", "Shopping"),
  ("Lifestyle/Mobilfunk", "Internet"),
  ("Lifestyle/Prime-Mitgliedschaft", "Subscriptions"),
  ("Lifestyle/Sonstiger Lifestyle", "Shopping"),
  ("Lifestyle", "Shopping"),
  ("Freizeit/In-App-Kaeufe", "Personal Entertainment"),
  ("Freizeit", "Personal Entertainment"),
  ("Gesundheit/Apotheke", "Health & Wellbeing"),
  ("Gesundheit", "Health & Wellbeing"),
  ("Mobilitaet/Fuehrerschein", "Car"),
  ("Mobilitaet/Auto", "Car"),
  ("Mobilitaet", "Public Transport"),
  ("Versicherungen/Sonstige Sachversicherung", "Insurance"),
  ("Versicherungen", "Insurance"),
  ("Sparen/Kapitalanlage", "Investment"),
  ("Sparen/Sparplan", "Investment"),
  ("Sparen", "Savings"),
  ("Finanzen/Investment", "Investment"),
  ("Finanzen/Steuern", "Other"),
  ("Finanzen", "Other"),
  ("Einnahmen/Lohn / Gehalt", "Income"),
  ("Einnahmen/Sonstige Einnahmen", "Income"),
  ("Einnahmen", "Income"),
  ("Sonstiges/Sonstige Ausgaben", "Other"),
  ("Sonstiges", "Other"),
  ("Drogerie/Drogerie", "Groceries"),
  ("Drogerie", "Groceries")]

/-- `mapGermanCategory` (`undefined` for a falsy source category). -/
def mapGermanCategory (category subcategory : Option String) : Option String :=
  if !strTruthy category then none
  else
    let c := category.getD ""
    let combined := if strTruthy subcategory then c ++ "/" ++ subcategory.getD "" else c
    match truthyHit (assocGet GERMAN_CATEGORY_MAP combined) with
    | some m => some m
    | none => assocGet GERMAN_CATEGORY_MAP c

/-- `setLearnedMappings`: normalize merchants into a fresh map
(later duplicates overwrite). -/
def setLearnedMappings (mappings : List (String × String)) :
    List (String × String) :=
  mappings.foldl (fun m p => mapSet m (normalizeMerchant p.1) p.2) []

/-- The per-transaction body of `categorizeWithRules`. -/
def categorizeOne (learned : List (String × String)) (tx : Transaction) :
    Transaction :=
  if boolTruthy tx.isTransfer then
    { tx with
      category := some "Transfer",
      categorySource := some .rule }
  else if TRANSFER_PATTERNS.any (fun p => reTest true p tx.description) then
    { tx with
      category := some "Transfer",
      isTransfer := some true,
      categorySource := some .rule }
  else
    match findLearnedCategory learned tx with
    | some learnedCategory =>
      { tx with category := some learnedCategory, categorySource := some .learned }
    | none =>
      let mappedCategory := mapGermanCategory tx.category tx.subcategory
      if strTruthy mappedCategory && mappedCategory ≠ some "Other" then
        { tx with category := mappedCategory, categorySource := some .rule }
      else
        let textToMatch := tx.description ++ " " ++ strOr tx.recipient "" ++ " " ++
          strOr tx.category "" ++ " " ++ strOr tx.subcategory ""
        match MERCHANT_RULES.find? (fun r => reTest true r.pattern textToMatch) with
        | some rule =>
          { tx with
            category := some rule.category,
            merchant := (match rule.merchant with
              | some m => some m
              | none => extractMerchant textToMatch rule.pattern),
            categorySource := some .rule }
        | none =>
          { tx with
            category := some (strOr mappedCategory "Other"),
            categorySource := if strTruthy tx.category then some .rule else none }

/-- `categorizeWithRules`. -/
def categorizeWithRules (learned : List (String × String))
    (transactions : List Transaction) : List Transaction :=
  transactions.map (categorizeOne learned)

end FinKit

namespace FinKit

/-! ## Internal-transfer detector (lib/double-booking.ts) -/

structure DoubleBookingPair where
  outgoing : Transaction
  incoming : Transaction
  amount : ℚ
  date : String
deriving Repr, DecidableEq

/-- The transfer-keyword list of `isInternalTransfer`. -/
def DB_TRANSFER_KEYWORDS : List String := [
  "sent from n26", "moved to", "moved from", "umbuchung", "übertrag",
  "internal transfer", "from your eur balance", "to your eur balance",
  "from main account", "to main account", "from euro - konto",
  "to euro - konto", "from travel fund", "to travel fund",
  "from driver", "to driver"]

/-- `isInternalTransfer`. -/
def isInternalTransfer (tx : Transaction)
    (userAccounts userAccountNames : List String) : Bool :=
  if boolTruthy tx.isTransfer then true
  else
    let description := lowerStr tx.description
    let recipient := lowerStr (strOr tx.recipient "")
    let recipientIban := lowerStr (strOr tx.recipientIban "")
    if userAccounts.any (fun account =>
        strIncludes recipientIban account || strIncludes recipient account ||
        (account.length > 6 && strIncludes description account)) then
      true
    else if DB_TRANSFER_KEYWORDS.any (fun keyword =>
        strIncludes description keyword) then
      true
    else if userAccountNames.any (fun accountName =>
        accountName.length > 3 && strIncludes recipient accountName) then
      true
    else if strIncludes description "sent " && tx.type = .expense then
      -- the source's "Sent [PersonName]" branch explicitly defers to pairing
      false
    else false

/-- Insertion-ordered grouping (`Map` of lists, appended to in place). -/
def addToGroup (groups : List (String × List Transaction)) (k : String)
    (tx : Transaction) : List (String × List Transaction) :=
  if groups.any (fun g => g.1 = k) then
    groups.map (fun g => if g.1 = k then (g.1, g.2 ++ [tx]) else g)
  else groups ++ [(k, [tx])]

/-- The `for (const income of incomes)` inner loop for one expense. -/
def pairExpense (incomes : List Transaction) (date : String)
    (st : List DoubleBookingPair × List String) (expense : Transaction) :
    List DoubleBookingPair × List String :=
  let (pairs, pairedIds) := st
  if pairedIds.contains expense.id then st
  else
    match incomes.find? (fun income =>
        !pairedIds.contains income.id &&
        |expense.amount - income.amount| ≤ 1/100) with
    | some income =>
      (pairs ++ [⟨expense, income, expense.amount, date⟩],
       pairedIds ++ [expense.id, income.id])
    | none => st

/-- One date-group of the pairing loop. -/
def pairDay (markedAsInternal : List String)
    (st : List DoubleBookingPair × List String)
    (g : String × List Transaction) : List DoubleBookingPair × List String :=
  let expenses := g.2.filter (fun tx =>
    tx.type = .expense && markedAsInternal.contains tx.id)
  let incomes := g.2.filter (fun tx =>
    tx.type = .income && markedAsInternal.contains tx.id)
  expenses.foldl (pairExpense incomes g.1) st

/-- Step 4 of `detectDoubleBookings`: annotate one transaction. -/
def annotateInternal (pairs : List DoubleBookingPair)
    (pairedIds markedAsInternal : List String) (tx : Transaction) : Transaction :=
  let isInternal := markedAsInternal.contains tx.id
  let isPaired := pairedIds.contains tx.id
  let isIncomingSide := pairs.any (fun p => p.incoming.id = tx.id)
  if isInternal then
    { tx with
      category := some "Transfer",
      isTransfer := some true,
      isExcluded := some (tx.type = .income),
      doubleBookingMatch :=
        if isPaired then
          if isIncomingSide then
            (pairs.find? (fun p => p.incoming.id = tx.id)).map (·.outgoing.id)
          else
            (pairs.find? (fun p => p.outgoing.id = tx.id)).map (·.incoming.id)
        else none }
  else tx

structure DoubleBookingResult where
  transactions : List Transaction
  pairs : List DoubleBookingPair
deriving Repr, DecidableEq

/-- `detectDoubleBookings`: collect the user's own accounts, mark internal
transactions, pair same-date/same-amount expense-income couples greedily,
then annotate.  The JS `Set`s are lists used only through membership. -/
def detectDoubleBookings (transactions : List Transaction) :
    DoubleBookingResult :=
  let userAccounts := transactions.filterMap (fun tx =>
    if strTruthy tx.referenceAccount then
      some (lowerStr (tx.referenceAccount.getD "")) else none)
  let userAccountNames := transactions.filterMap (fun tx =>
    if strTruthy tx.referenceAccountName then
      some (lowerStr (tx.referenceAccountName.getD "")) else none)
  let markedAsInternal := (transactions.filter
    (fun tx => isInternalTransfer tx userAccounts userAccountNames)).map (·.id)
  let byDate := transactions.foldl (fun gs tx => addToGroup gs tx.date tx) []
  let (pairs, pairedIds) := byDate.foldl (pairDay markedAsInternal) ([], [])
  { transactions := transactions.map
      (annotateInternal pairs pairedIds markedAsInternal),
    pairs := pairs }

/-! ## Recurrence detector (lib/recurring.ts) -/

def AMOUNT_TOLERANCE : ℚ := 5/100
def MIN_OCCURRENCES : Nat := 2
def DAY_TOLERANCE : ℚ := 3

/-- `Math.round` (half away from zero is JS half-up: `⌊q + 1/2⌋`). -/
def jsRound (q : ℚ) : Int := Int.floor (q + 1/2)

/-- `calculateDaysBetween` (`none` = NaN, from an Invalid Date). -/
def calculateDaysBetween (date1 date2 : String) : Option ℚ :=
  match isoToMs date1, isoToMs date2 with
  | some t1, some t2 => some ((|t1 - t2| : ℤ) / (1000 * 60 * 60 * 24 : ℚ))
  | _, _ => none

/-- `detectFrequency`: inclusive average-gap buckets; a NaN average fails
every comparison, giving `null`. -/
def detectFrequency (intervals : List (Option ℚ)) : Option Frequency :=
  if intervals.length = 0 then none
  else
    let sum := intervals.foldl (fun acc i =>
      match acc, i with
      | some a, some b => some (a + b)
      | _, _ => none) (some 0)
    match sum.map (· / (intervals.length : ℚ)) with
    | none => none
    | some avgInterval =>
      if 5 ≤ avgInterval ∧ avgInterval ≤ 9 then some .weekly
      else if 25 ≤ avgInterval ∧ avgInterval ≤ 35 then some .monthly
      else if 80 ≤ avgInterval ∧ avgInterval ≤ 100 then some .quarterly
      else if 350 ≤ avgInterval ∧ avgInterval ≤ 380 then some .yearly
      else none

/-- The grouping key merchant text. -/
def merchantKeyText (tx : Transaction) : String :=
  strOr tx.merchant (strOr tx.recipient (String.mk (tx.description.toList.take 30)))

/-- `groupByMerchantAndAmount`: skip income and transfers, group by
lowercased merchant text plus rounded amount. -/
def groupByMerchantAndAmount (transactions : List Transaction) :
    List (String × List Transaction) :=
  transactions.foldl (fun groups tx =>
    if tx.type = .income || tx.category = some "Transfer" then groups
    else
      let key := lowerStr (merchantKeyText tx) ++ "_" ++ toString (jsRound tx.amount)
      addToGroup groups key tx) []

/-- `isAmountSimilar`: relative 5% tolerance (`0/0` is NaN, `x/0` is
Infinity — either way the JS comparison is false when the max is `0`). -/
def isAmountSimilar (amount1 amount2 : ℚ) : Bool :=
  let diff := |amount1 - amount2|
  let maxAmount := max amount1 amount2
  if maxAmount = 0 then false
  else diff / maxAmount ≤ AMOUNT_TOLERANCE

/-- Sort by date ascending (stable, like `Array.prototype.sort`). -/
def sortByDateAsc (txs : List Transaction) : List Transaction :=
  List.insertionSort
    (fun a b => (isoToMs a.date).getD 0 ≤ (isoToMs b.date).getD 0) txs

structure RecurringPattern where
  merchant : String
  category : String
  avgAmount : ℚ
  frequency : Frequency
  transactions : List String
deriving Repr, DecidableEq

/-- The per-group body of `detectRecurring`'s pattern loop. -/
def patternOfGroup (txGroup : List Transaction) : Option RecurringPattern :=
  if txGroup.length < MIN_OCCURRENCES then none
  else
    let sorted := sortByDateAsc txGroup
    match sorted.head? with
    | none => none
    | some first =>
      let firstAmount := first.amount
      if !(sorted.all (fun tx => isAmountSimilar tx.amount firstAmount)) then none
      else
        let intervals := (sorted.zip sorted.tail).map
          (fun p => calculateDaysBetween p.1.date p.2.date)
        match detectFrequency intervals with
        | none => none
        | some frequency =>
          let sum := intervals.foldl (fun acc i =>
            match acc, i with
            | some a, some b => some (a + b)
            | _, _ => none) (some 0)
          let avgInterval := sum.map (· / (intervals.length : ℚ))
          let isConsistent := intervals.all (fun interval =>
            match interval, avgInterval with
            | some x, some a => |x - a| ≤ DAY_TOLERANCE * 2
            | _, _ => false)
          if !isConsistent && intervals.length > 1 then none
          else
            some { merchant := merchantKeyText first,
                   category := strOr first.category "Other",
                   avgAmount := (sorted.foldl (fun s tx => s + tx.amount) 0) /
                     (sorted.length : ℚ),
                   frequency := frequency,
                   transactions := sorted.map (·.id) }

/-- `detectRecurring`. -/
def detectRecurring (transactions : List Transaction) : List Transaction :=
  let groups := groupByMerchantAndAmount transactions
  let patterns := groups.filterMap (fun g => patternOfGroup g.2)
  let recurringIds := patterns.flatMap (·.transactions)
  let recurringFrequencies := patterns.foldl (fun m p =>
    p.transactions.foldl (fun m id => mapSet m id p.frequency) m) []
  transactions.map (fun tx =>
    if recurringIds.contains tx.id then
      { tx with
        isRecurring := some true,
        recurringFrequency := assocGet recurringFrequencies tx.id }
    else tx)

end FinKit

namespace FinKit

/-! ## Anonymizer (lib/anonymizer.ts) -/

def upperAZ (c : Char) : Bool := 'A' ≤ c && c ≤ 'Z'
def lowerAZ (c : Char) : Bool := 'a' ≤ c && c ≤ 'z'
def alphaAZ (c : Char) : Bool := upperAZ c || lowerAZ c
def upperAZ09 (c : Char) : Bool := upperAZ c || isDigitChar c

/-- `PATTERNS.iban`: `[A-Z]{2}\d{2}[A-Z0-9]{4}\d{7}[A-Z0-9]{0,16}`. -/
def PAT_IBAN : RE :=
  reSeqL [clsRep upperAZ 2, clsRep isDigitChar 2, clsRep upperAZ09 4,
    clsRep isDigitChar 7, clsRepRange upperAZ09 0 16]

def emailLocalChar (c : Char) : Bool :=
  alphaAZ c || isDigitChar c || c = '.' || c = '_' || c = '%' || c = '+' || c = '-'

def emailDomainChar (c : Char) : Bool :=
  alphaAZ c || isDigitChar c || c = '.' || c = '-'

/-- `PATTERNS.email`: `[a-zA-Z0-9._%+-]+@[a-zA-Z0-9.-]+\.[a-zA-Z]{2,}`. -/
def PAT_EMAIL : RE :=
  reSeqL [clsPlus emailLocalChar, .lit '@', clsPlus emailDomainChar, .lit '.',
    clsRep alphaAZ 2, .starCls alphaAZ]

def phoneSep (c : Char) : Bool := c = '-' || c = '.' || isJsWhitespace c

/-- `PATTERNS.phone`:
`(?:\+\d{1,3}[-.\s]?)?\(?\d{3}\)?[-.\s]?\d{3}[-.\s]?\d{4}`. -/
def PAT_PHONE : RE :=
  reSeqL [
    .opt (reSeqL [.lit '+', clsRepRange isDigitChar 1 2, .opt (.cls phoneSep)]),
    .opt (.lit '('), clsRep isDigitChar 3, .opt (.lit ')'), .opt (.cls phoneSep),
    clsRep isDigitChar 3, .opt (.cls phoneSep), clsRep isDigitChar 4]

/-- `KNOWN_MERCHANTS`. -/
def KNOWN_MERCHANTS : List String := [
  "rewe", "aldi", "lidl", "edeka", "netto", "penny", "kaufland", "real",
  "dm", "rossmann", "müller",
  "amazon", "zalando", "otto", "ebay", "mediamarkt", "saturn", "flaconi",
  "lieferando", "wolt", "uber eats", "delivery hero",
  "mcdonalds", "burger king", "subway", "kfc", "starbucks",
  "apple", "netflix", "spotify", "playstation", "xbox", "steam", "nintendo",
  "sony interactive entertainment", "google", "paypal",
  "scalable capital", "trade republic", "n26", "dkb", "sparkasse", "commerzbank",
  "deutsche bank", "ing", "comdirect", "finanzamt", "transferwise", "wise",
  "allianz", "ergo", "huk", "axa", "getsafe",
  "telekom", "vodafone", "o2", "congstar", "aldi talk", "rebtel",
  "deutsche bahn", "db", "bvg", "uber", "bolt", "freenow",
  "vattenfall", "eon", "beitragsservice", "ard", "zdf",
  "ikea", "h&m", "zara", "primark", "zeeman", "maya handels"]

/-- `BUSINESS_SUFFIXES`. -/
def BUSINESS_SUFFIXES : List String := [
  "gmbh", "ag", "ltd", "inc", "co", "kg", "ohg", "ug", "se", "ev", "e.v.",
  "corp", "llc", "limited", "holding", "group", "services", "payments",
  "bank", "sparkasse", "versicherung", "finanz", "capital"]

/-- `isLikelyBusiness`: substring match against known merchants or business
suffixes; unrecognized names count as personal (privacy-first). -/
def isLikelyBusiness (name : String) : Bool :=
  if name.isEmpty then false
  else
    let lower := trimStr (lowerStr name)
    KNOWN_MERCHANTS.any (fun merchant => strIncludes lower merchant) ||
    BUSINESS_SUFFIXES.any (fun suffix => strIncludes lower suffix)

/-- `cleanMerchantName`: strip legal suffix words, collapse whitespace, trim. -/
def CLEAN_MERCHANT_RE : RE :=
  wordAlt [reStr "gmbh", reStr "ag", reStr "ltd", reStr "ug", reStr "kg",
    reStr "inc", reStr "co"]

def cleanMerchantName (name : String) : String :=
  trimStr (String.mk (collapseWsGo false
    (reReplaceList true CLEAN_MERCHANT_RE (fun _ => []) name.toList)))

structure Counters where
  name : Nat := 0
  iban : Nat := 0
  account : Nat := 0
  email : Nat := 0
  phone : Nat := 0
  address : Nat := 0
deriving Repr, DecidableEq

/-- `AnonymizationMapping`; `type` is kept as a plain string so that the
`default` branch of `getOrCreate` (an unrecognized type) is expressible. -/
structure AnonymizationMapping where
  original : String
  anonymized : String
  type : String
deriving Repr, DecidableEq

/-- The in-memory `AnonymizationStore` (`mappings` keyed by
`type:original`, plus the reverse map and the per-type counters). -/
structure AnonymizationStore where
  mappings : List (String × AnonymizationMapping) := []
  reverseMap : List (String × String) := []
  counters : Counters := {}
deriving Repr, DecidableEq

/-- `AnonymizationStore.clear()` resets to the fresh store. -/
def AnonymizationStore.clear (_st : AnonymizationStore) : AnonymizationStore := {}

def ID_CHARS : List Char := "ABCDEFGHJKLMNPQRSTUVWXYZ23456789".toList

/-- `generateId`'s `while (n > 0 || id.length < 3)` loop. -/
def generateIdGo : Nat → Nat → List Char → List Char
  | 0, _, id => id
  | fuel + 1, n, id =>
    if 0 < n ∨ id.length < 3 then
      generateIdGo fuel (n / 32) (ID_CHARS.getD (n % 32) 'A' :: id)
    else id

/-- `generateId`: every loop iteration either divides `n` by 32 or grows the
id toward length 3, so `num + 3` fuel never runs out. -/
def generateId (num : Nat) : String := String.mk (generateIdGo (num + 3) num [])

/-- `s.slice(-4)`. -/
def sliceLast4 (s : String) : String :=
  String.mk (s.toList.drop (s.length - 4))

/-- `'*'.repeat(n)`: throws `RangeError` for a negative count. -/
def jsRepeatStar (n : Int) : Except String String :=
  if n < 0 then .error "RangeError: Invalid count value"
  else .ok (String.mk (List.replicate n.toNat '*'))

/-- `AnonymizationStore.getOrCreate`. -/
def getOrCreate (st : AnonymizationStore) (original : String) (ty : String) :
    Except String (String × AnonymizationStore) :=
  let key := ty ++ ":" ++ original
  match assocGet st.mappings key with
  | some m => .ok (m.anonymized, st)
  | none =>
    let mk : String → Counters → Except String (String × Counters) :=
      fun anonymized counters => .ok (anonymized, counters)
    match (match ty with
      | "name" =>
        let n := st.counters.name + 1
        mk ("Person_" ++ generateId n) { st.counters with name := n }
      | "iban" =>
        match jsRepeatStar ((original.length : Int) - 6) with
        | .error e => .error e
        | .ok stars =>
          mk (String.mk (original.toList.take 2) ++ stars ++ sliceLast4 original)
            st.counters
      | "account" =>
        let n := st.counters.account + 1
        mk ("Acc_" ++ generateId n) { st.counters with account := n }
      | "email" =>
        let parts := strSplitOnChar original '@' 
        let localPart := parts.headD ""
        let domain := parts[1]?
        mk ((match localPart.toList.head? with
             | some c => String.mk [c]
             | none => "undefined") ++ "***@" ++ domain.getD "undefined")
          st.counters
      | "phone" => mk ("+**********" ++ sliceLast4 original) st.counters
      | "address" =>
        let n := st.counters.address + 1
        mk ("Address_" ++ toString n) { st.counters with address := n }
      | _ => mk "[REDACTED]" st.counters) with
    | .error e => .error e
    | .ok (anonymized, counters) =>
      .ok (anonymized,
        { mappings := mapSet st.mappings key ⟨original, anonymized, ty⟩,
          reverseMap := mapSet st.reverseMap anonymized original,
          counters := counters })

/-- `AnonymizationStore.getOriginal`. -/
def getOriginal (st : AnonymizationStore) (anonymized : String) : Option String :=
  assocGet st.reverseMap anonymized

/-- `AnonymizationStore.getAllMappings`. -/
def getAllMappings (st : AnonymizationStore) : List AnonymizationMapping :=
  st.mappings.map (·.2)

/-- Store-threaded global regex replace (callback may consult and update the
store, and may fail), fuelled like `reReplaceGo`. -/
def reReplaceStGo (ci : Bool) (re : RE)
    (f : AnonymizationStore → List Char →
      Except String (List Char × AnonymizationStore)) :
    Nat → AnonymizationStore → Option Char → List Char →
    Except String (List Char × AnonymizationStore)
  | 0, st, _, s => .ok (s, st)
  | fuel + 1, st, prev, s =>
    match reFind ci re prev s [] with
    | none => .ok (s, st)
    | some (preRev, matched, rest) =>
      if matched.isEmpty then .ok (s, st)
      else
        match f st matched with
        | .error e => .error e
        | .ok (rep, st1) =>
          match reReplaceStGo ci re f fuel st1 matched.getLast? rest with
          | .error e => .error e
          | .ok (tail, st2) => .ok (preRev.reverse ++ rep ++ tail, st2)

def reReplaceSt (ci : Bool) (re : RE)
    (f : AnonymizationStore → List Char →
      Except String (List Char × AnonymizationStore))
    (st : AnonymizationStore) (s : List Char) :
    Except String (List Char × AnonymizationStore) :=
  reReplaceStGo ci re f (s.length + 1) st none s

/-- The replace callback `m => store.getOrCreate(m, ty)`. -/
def replaceWithStore (ty : String) (st : AnonymizationStore) (m : List Char) :
    Except String (List Char × AnonymizationStore) :=
  match getOrCreate st (String.mk m) ty with
  | .error e => .error e
  | .ok (a, st') => .ok (a.toList, st')

/-- The per-name body of `anonymizeText`'s personal-name loop: whole-word
case-insensitive replacement of one collected name.  As in the source,
`getOrCreate(name, 'name')` is evaluated per name even when the name does
not occur in the text (it is the second argument of `replace`). -/
def anonNameStep (acc : List Char × AnonymizationStore) (name : String) :
    Except String (List Char × AnonymizationStore) :=
  if !name.isEmpty && name.length > 3 then
    match getOrCreate acc.2 name "name" with
    | .error e => .error e
    | .ok (anon, st') =>
      .ok (reReplaceList true (reSeqL [.wb, reStr name, .wb])
        (fun _ => anon.toList) acc.1, st')
  else .ok acc

/-- `anonymizeText`: inline IBAN/email/phone replacement, then whole-word
replacement of each collected personal name. -/
def anonymizeText (st : AnonymizationStore) (text : String)
    (personalNames : List String) :
    Except String (String × AnonymizationStore) :=
  if text.isEmpty then .ok (text, st)
  else
    match reReplaceSt false PAT_IBAN (replaceWithStore "iban") st
        text.toList with
    | .error e => .error e
    | .ok (r1, st1) =>
      match reReplaceSt false PAT_EMAIL (replaceWithStore "email") st1 r1 with
      | .error e => .error e
      | .ok (r2, st2) =>
        match reReplaceSt false PAT_PHONE (replaceWithStore "phone") st2 r2 with
        | .error e => .error e
        | .ok (r3, st3) =>
          match personalNames.foldlM anonNameStep (r3, st3) with
          | .error e => .error e
          | .ok (r4, st4) => .ok (String.mk r4, st4)

end FinKit

namespace FinKit

structure AnonymizedData where
  transactions : List Transaction
  mappings : List AnonymizationMapping
deriving Repr, DecidableEq

/-- The id `tx_${Date.now()}_${index}`; `Date.now()` is the parameter `now`. -/
def mkTxId (now index : Nat) : String :=
  "tx_" ++ toString now ++ "_" ++ toString index

/-- The body of the second-pass `map` of `anonymizeTransactions`. -/
def anonymizeOne (now : Nat) (personalNames : List String)
    (st : AnonymizationStore) (index : Nat) (raw : RawTransaction) :
    Except String (Transaction × AnonymizationStore) :=
  match (if strTruthy raw.recipient then
      (if isLikelyBusiness (raw.recipient.getD "") then
        .ok (some (raw.recipient.getD ""), st)
      else
        match getOrCreate st (raw.recipient.getD "") "name" with
        | .error e => .error e
        | .ok (a, st') => .ok (some a, st'))
    else .ok ((none : Option String), st) :
      Except String (Option String × AnonymizationStore)) with
  | .error e => .error e
  | .ok (anonymizedRecipient, st1) =>
    match (if strTruthy raw.recipientIban then
        match getOrCreate st1 (raw.recipientIban.getD "") "iban" with
        | .error e => .error e
        | .ok (a, st') => .ok (some a, st')
      else .ok ((none : Option String), st1) :
        Except String (Option String × AnonymizationStore)) with
    | .error e => .error e
    | .ok (anonymizedIban, st2) =>
      match anonymizeText st2 raw.description personalNames with
      | .error e => .error e
      | .ok (anonymizedDescription, st3) =>
        let merchant :=
          if strTruthy raw.recipient && isLikelyBusiness (raw.recipient.getD "")
          then some (cleanMerchantName (raw.recipient.getD ""))
          else none
        .ok ({ toRawTransaction :=
                 { raw with
                   recipient := anonymizedRecipient,
                   recipientIban := anonymizedIban,
                   description := anonymizedDescription,
                   amount := |raw.amount| },
               id := mkTxId now index,
               merchant := merchant,
               type := if raw.amount < 0 then .expense else .income,
               categorySource :=
                 if strTruthy raw.category then some .rule else none },
             st3)

/-- The `rawTransactions.map` loop with the store threaded through. -/
def anonymizeAll (now : Nat) (personalNames : List String) :
    AnonymizationStore → Nat → List RawTransaction →
    Except String (List Transaction × AnonymizationStore)
  | st, _, [] => .ok ([], st)
  | st, index, raw :: rest =>
    match anonymizeOne now personalNames st index raw with
    | .error e => .error e
    | .ok (t, st') =>
      match anonymizeAll now personalNames st' (index + 1) rest with
      | .error e => .error e
      | .ok (ts, st'') => .ok (t :: ts, st'')

/-- `anonymizeTransactions`: clear the store, collect personal names
(a `Set`, here deduplicated), anonymize the batch.  The returned store is
the module-level singleton's state after the call (read by
`getOriginalValue`). -/
def anonymizeTransactions (now : Nat) (rawTransactions : List RawTransaction) :
    Except String (AnonymizedData × AnonymizationStore) :=
  let st : AnonymizationStore := {}
  let personalNames := dedup (rawTransactions.filterMap (fun tx =>
    match tx.recipient with
    | some r =>
      if !r.isEmpty && r.length > 3 && !isLikelyBusiness r then some r else none
    | none => none))
  match anonymizeAll now personalNames st 0 rawTransactions with
  | .error e => .error e
  | .ok (transactions, stF) =>
    .ok ({ transactions := transactions, mappings := getAllMappings stF }, stF)

/-- `getOriginalValue` (module export reading the singleton store). -/
def getOriginalValue (st : AnonymizationStore) (anonymized : String) :
    Option String :=
  getOriginal st anonymized

/-- `processWithoutAnonymization`. -/
def processWithoutAnonymization (now : Nat)
    (rawTransactions : List RawTransaction) : List Transaction :=
  rawTransactions.enum.map (fun (p : Nat × RawTransaction) =>
    let index := p.1
    let raw := p.2
    { toRawTransaction := { raw with amount := |raw.amount| },
      id := mkTxId now index,
      merchant :=
        if strTruthy raw.recipient && isLikelyBusiness (raw.recipient.getD "")
        then some (cleanMerchantName (raw.recipient.getD ""))
        else none,
      type := if raw.amount < 0 then .expense else .income,
      categorySource := if strTruthy raw.category then some .rule else none })

/-! ## Pipeline (App.tsx `processTransactions`) -/

/-- `processTransactions`: anonymize (or pass through), categorize, detect
double-bookings, detect recurring.  `learned` is the learned-mappings cache
set by `setLearnedMappings`. -/
def processTransactions (now : Nat) (learned : List (String × String))
    (raw : List RawTransaction) (anonymize : Bool) :
    Except String (List Transaction) :=
  match (if anonymize then
      (anonymizeTransactions now raw).map (fun r => r.1.transactions)
    else .ok (processWithoutAnonymization now raw)) with
  | .error e => .error e
  | .ok processed =>
    let categorized := categorizeWithRules learned processed
    let withDoubleBookings := (detectDoubleBookings categorized).transactions
    .ok (detectRecurring withDoubleBookings)

end FinKit

namespace FinKit

/-! ## Supporting lemmas -/

theorem lastIndexOf_ge_neg1 (cs : List Char) (c : Char) :
    -1 ≤ lastIndexOf cs c := by
  unfold lastIndexOf
  split
  · omega
  · omega

theorem lastIndexOf_nil (c : Char) : lastIndexOf [] c = -1 := rfl

end FinKit

namespace FinKit

/-! ## C8 — amount-format disambiguation -/

/-- C8 (counterexample): the claim's general rule says that a comma not
followed by exactly two digits is a thousands separator, so `"1,234"` would
parse to `1234`; the code's lone-comma branch always treats the comma as the
decimal separator and yields `1.234`. -/
theorem C8_counterexample :
    parseNumber "1,234" = 617/500 ∧ (617/500 : ℚ) ≠ 1234 := by
  constructor
  · decide
  · norm_num

/-- C8 (amended): the three claimed parses hold; and whenever the cleaned
input contains a comma but no dot, the comma is always treated as the decimal
separator — regardless of the number of trailing digits (the source's
trailing-two-digit check sits in an unreachable branch). -/
theorem C8_amended :
    parseNumber "1.234,56" = 123456/100 ∧
    parseNumber "1,234.56" = 123456/100 ∧
    parseNumber "12,99" = 1299/100 ∧
    (∀ value : String,
      lastIndexOf (value.toList.filter
        (fun c => !(c = '"' || c = '\'' || isJsWhitespace c))) '.' = -1 →
      lastIndexOf (value.toList.filter
        (fun c => !(c = '"' || c = '\'' || isJsWhitespace c))) ',' ≠ -1 →
      parseNumber value =
        parseFloatOr0 ((replaceFirst ((value.toList.filter
          (fun c => !(c = '"' || c = '\'' || isJsWhitespace c))).filter
            (· ≠ '.')) ',' '.').filter
          (fun c => isDigitChar c || c = '.' || c = '-'))) := by
  refine ⟨by decide, by decide, by decide, ?_⟩
  intro value h1 h2
  by_cases he : value.isEmpty = true
  · exfalso
    have hv : value = "" := (String.isEmpty_iff value).mp he
    subst hv
    exact h2 rfl
  · have hb := lastIndexOf_ge_neg1 (value.toList.filter
      (fun c => !(c = '"' || c = '\'' || isJsWhitespace c))) ','
    simp only [parseNumber]
    rw [if_neg he]
    split_ifs with hc1 hc2 hc3 hc4
    · exfalso
      simp only [Bool.and_eq_true, decide_eq_true_eq] at hc1
      omega
    · exfalso
      omega
    · rfl
    · exfalso
      omega
    · exfalso
      omega

/-- C8 witness: the general lone-comma clause applied at `"1,234"`. -/
theorem C8_witness :
    parseNumber "1,234" =
      parseFloatOr0 ((replaceFirst ((("1,234".toList.filter
        (fun c => !(c = '"' || c = '\'' || isJsWhitespace c))).filter
          (· ≠ '.'))) ',' '.').filter
        (fun c => isDigitChar c || c = '.' || c = '-')) :=
  C8_amended.2.2.2 "1,234" (by decide) (by decide)

end FinKit

namespace FinKit

/-! ## C4 — malformed-row handling in `processRows` -/

theorem applyColumn_date_of_ne (fb : String → Option String) (m : MappedRow)
    (normalized : String) (v : Option String) (h : normalized ≠ "date") :
    (applyColumn fb m normalized v).date = m.date := by
  unfold applyColumn
  split <;> simp_all

theorem applyColumn_amount_of_ne (fb : String → Option String) (m : MappedRow)
    (normalized : String) (v : Option String) (h : normalized ≠ "amount") :
    (applyColumn fb m normalized v).amount = m.amount := by
  unfold applyColumn
  split <;> simp_all

theorem foldl_applyColumn_date (fb : String → Option String) (row : Row)
    (cm : List (String × String)) (m : MappedRow)
    (h : ∀ p ∈ cm, p.2 ≠ "date") :
    (cm.foldl (fun m (p : String × String) =>
      applyColumn fb m p.2 (assocGet row p.1)) m).date = m.date := by
  induction cm generalizing m with
  | nil => rfl
  | cons p t ih =>
    rw [List.foldl_cons, ih _ (fun q hq => h q (List.mem_cons_of_mem p hq)),
      applyColumn_date_of_ne _ _ _ _ (h p (List.mem_cons_self p t))]

theorem foldl_applyColumn_amount (fb : String → Option String) (row : Row)
    (cm : List (String × String)) (m : MappedRow)
    (h : ∀ p ∈ cm, p.2 ≠ "amount") :
    (cm.foldl (fun m (p : String × String) =>
      applyColumn fb m p.2 (assocGet row p.1)) m).amount = m.amount := by
  induction cm generalizing m with
  | nil => rfl
  | cons p t ih =>
    rw [List.foldl_cons, ih _ (fun q hq => h q (List.mem_cons_of_mem p hq)),
      applyColumn_amount_of_ne _ _ _ _ (h p (List.mem_cons_self p t))]

theorem processRow_none_of_no_date (fb : String → Option String)
    (cm : List (String × String)) (row : Row)
    (h : ∀ p ∈ cm, p.2 ≠ "date") : processRow fb cm row = none := by
  unfold processRow
  split
  · rfl
  · refine if_neg ?_
    rw [Bool.and_eq_true]
    rintro ⟨hs, -⟩
    rw [foldl_applyColumn_date fb row cm {} h] at hs
    exact absurd hs (by decide)

theorem processRow_none_of_no_amount (fb : String → Option String)
    (cm : List (String × String)) (row : Row)
    (h : ∀ p ∈ cm, p.2 ≠ "amount") : processRow fb cm row = none := by
  unfold processRow
  split
  · rfl
  · refine if_neg ?_
    rw [Bool.and_eq_true]
    rintro ⟨-, hs⟩
    rw [foldl_applyColumn_amount fb row cm {} h] at hs
    exact absurd hs (by decide)

/-- C4 (counterexample): the claim says a row with an unparseable date string
is silently skipped; in fact `parseDate` returns the raw string (here
`"xyz"`, with the generic `new Date` fallback also failing), which is truthy,
so the row is kept. -/
theorem C4_counterexample :
    (processRows (fun _ => none) [[("Date", "xyz"), ("Amount", "5")]]
      ["Date", "Amount"]).map (fun t => (t.date, t.amount)) = [("xyz", 5)] := by
  decide

/-- C4 (amended): rows where every field is empty are skipped; rows with no
date column, with an empty date value, or with no amount column are skipped
silently; but a row whose non-empty date string matches no supported format
is kept, carrying the raw string (or the engine fallback's result) as its
date. -/
theorem C4_amended :
    (∀ (fb : String → Option String) (cm : List (String × String)) (row : Row),
      (row.map (·.2)).all
        (fun v => (v.toList.dropWhile isJsWhitespace).isEmpty || v.isEmpty) →
      processRow fb cm row = none) ∧
    (∀ (fb : String → Option String) (headers : List String)
        (rows : List Row),
      (∀ h ∈ headers, normalizeColumnName h ≠ "date") →
      processRows fb rows headers = []) ∧
    (∀ (fb : String → Option String) (headers : List String)
        (rows : List Row),
      (∀ h ∈ headers, normalizeColumnName h ≠ "amount") →
      processRows fb rows headers = []) ∧
    (∀ fb : String → Option String,
      processRows fb [[("Date", ""), ("Amount", "5")]] ["Date", "Amount"] = []) ∧
    ((processRows (fun _ => none) [[("Date", "xyz"), ("Amount", "5")]]
        ["Date", "Amount"]).map (·.date) = ["xyz"]) := by
  refine ⟨?_, ?_, ?_, ?_, ?_⟩
  · intro fb cm row hempty
    unfold processRow
    rw [if_pos hempty]
  · intro fb headers rows h
    unfold processRows
    have : ∀ row ∈ rows, processRow fb
        (headers.map (fun h => (h, normalizeColumnName h))) row = none := by
      intro row _
      refine processRow_none_of_no_date _ _ _ ?_
      intro p hp
      obtain ⟨hh, hmem, rfl⟩ := List.mem_map.mp hp
      exact h hh hmem
    simp only [processRows]
    rw [List.filterMap_eq_nil_iff.mpr this]
    rfl
  · intro fb headers rows h
    unfold processRows
    have : ∀ row ∈ rows, processRow fb
        (headers.map (fun h => (h, normalizeColumnName h))) row = none := by
      intro row _
      refine processRow_none_of_no_amount _ _ _ ?_
      intro p hp
      obtain ⟨hh, hmem, rfl⟩ := List.mem_map.mp hp
      exact h hh hmem
    simp only [processRows]
    rw [List.filterMap_eq_nil_iff.mpr this]
    rfl
  · intro fb
    rfl
  · decide

end FinKit

namespace FinKit

/-- C4 witness: the skip clauses applied at concrete rows — an
all-whitespace row, a header set with no date column, and a header set with
no amount column. -/
theorem C4_witness :
    processRow (fun _ => none) [("Date", "date"), ("Amount", "amount")]
      [("Date", "   "), ("Amount", "")] = none ∧
    processRows (fun _ => none) [[("Foo", "1")]] ["Foo"] = [] ∧
    processRows (fun _ => none) [[("Date", "2024-01-01")]] ["Date"] = [] :=
  ⟨C4_amended.1 (fun _ => none) _ _ (by decide),
   C4_amended.2.1 (fun _ => none) _ _ (by decide),
   C4_amended.2.2.1 (fun _ => none) _ _ (by decide)⟩

end FinKit

namespace FinKit

/-! ## C9 — recurrence detection and frequency bucketing -/

/-- The three-transaction Netflix scenario of the claim. -/
def c9tx (i : Nat) (d : String) : Transaction :=
  { date := d, description := "Netflix subscription", amount := 1299/100,
    currency := "EUR", id := "n" ++ toString i, type := .expense,
    merchant := some "Netflix" }

theorem foldl_optAdd (gaps : List ℚ) (a : ℚ) :
    (gaps.map some).foldl (fun acc i =>
      match acc, i with
      | some x, some y => some (x + y)
      | _, _ => none) (some a) = some (a + gaps.sum) := by
  induction gaps generalizing a with
  | nil => simp
  | cons g t ih =>
    simp only [List.map_cons, List.foldl_cons, List.sum_cons]
    rw [ih (a + g), add_assoc]

/-- C9: the Netflix transactions dated 2024-01-01, 2024-02-01, 2024-03-03
(gaps of 31 and 31 days) are all tagged recurring monthly; and in general
the detector classifies the average gap into the inclusive buckets weekly
[5,9], monthly [25,35], quarterly [80,100], yearly [350,380], discarding a
group whose average lies outside all four. -/
theorem C9_recurrence :
    ((detectRecurring [c9tx 1 "2024-01-01", c9tx 2 "2024-02-01",
        c9tx 3 "2024-03-03"]).map
      (fun t => (t.isRecurring, t.recurringFrequency)) =
      [(some true, some .monthly), (some true, some .monthly),
       (some true, some .monthly)]) ∧
    (∀ gaps : List ℚ, gaps ≠ [] →
      detectFrequency (gaps.map some) =
        (if 5 ≤ gaps.sum / gaps.length ∧ gaps.sum / gaps.length ≤ 9 then
          some .weekly
        else if 25 ≤ gaps.sum / gaps.length ∧ gaps.sum / gaps.length ≤ 35 then
          some .monthly
        else if 80 ≤ gaps.sum / gaps.length ∧ gaps.sum / gaps.length ≤ 100 then
          some .quarterly
        else if 350 ≤ gaps.sum / gaps.length ∧ gaps.sum / gaps.length ≤ 380 then
          some .yearly
        else none)) := by
  constructor
  · decide
  · intro gaps hne
    unfold detectFrequency
    rw [if_neg (by simp [hne])]
    rw [foldl_optAdd gaps 0, zero_add]
    simp only [Option.map_some', List.length_map]

/-- C9 witness: the bucketing clause applied at the concrete gap list
`[31, 31]`. -/
theorem C9_witness :
    detectFrequency ([(31 : ℚ), 31].map some) = some .monthly :=
  (C9_recurrence.2 [31, 31] (by decide)).trans (by decide)

end FinKit

namespace FinKit

/-! ## C3 — sign normalization -/

theorem anonymizeOne_amount_type (now : Nat) (pn : List String)
    (st : AnonymizationStore) (idx : Nat) (raw : RawTransaction)
    (t : Transaction) (st' : AnonymizationStore)
    (h : anonymizeOne now pn st idx raw = .ok (t, st')) :
    t.amount = |raw.amount| ∧ (t.type = .income ↔ 0 ≤ raw.amount) := by
  unfold anonymizeOne at h
  split at h
  · exact absurd h (by simp)
  · split at h
    · exact absurd h (by simp)
    · split at h
      · exact absurd h (by simp)
      · injection h with hpair
        obtain ⟨ht, -⟩ := Prod.mk.injEq .. |>.mp hpair
        subst ht
        refine ⟨rfl, ?_⟩
        simp only
        split
        · rename_i hlt
          constructor
          · intro hc
            exact absurd hc (by decide)
          · intro hge
            exact absurd hlt (not_lt.mpr hge)
        · rename_i hnlt
          constructor
          · intro _
            exact not_lt.mp hnlt
          · intro _
            rfl

theorem anonymizeAll_spec (now : Nat) (pn : List String) :
    ∀ (rs : List RawTransaction) (st : AnonymizationStore) (idx : Nat)
      (out : List Transaction) (st' : AnonymizationStore),
      anonymizeAll now pn st idx rs = .ok (out, st') →
      out.length = rs.length ∧
      ∀ i (h1 : i < out.length) (h2 : i < rs.length),
        out[i].amount = |rs[i].amount| ∧
        (out[i].type = .income ↔ 0 ≤ rs[i].amount) := by
  intro rs
  induction rs with
  | nil =>
    intro st idx out st' h
    unfold anonymizeAll at h
    injection h with hpair
    obtain ⟨hout, -⟩ := Prod.mk.injEq .. |>.mp hpair
    subst hout
    exact ⟨rfl, fun i h1 h2 => absurd h1 (by simp)⟩
  | cons r rest ih =>
    intro st idx out st' h
    unfold anonymizeAll at h
    split at h
    · exact absurd h (by simp)
    · rename_i t st1 hone
      split at h
      · exact absurd h (by simp)
      · rename_i ts st2 hall
        injection h with hpair
        obtain ⟨hout, -⟩ := Prod.mk.injEq .. |>.mp hpair
        subst hout
        obtain ⟨hlen, hfields⟩ := ih st1 (idx + 1) ts st2 hall
        refine ⟨by simp [hlen], ?_⟩
        intro i h1 h2
        cases i with
        | zero =>
          simpa using anonymizeOne_amount_type now pn st idx r t st1 hone
        | succ j =>
          have hj1 : j < ts.length := by simpa using h1
          have hj2 : j < rest.length := by simpa using h2
          simpa using hfields j hj1 hj2

/-- C3: with or without anonymization, every processed transaction's amount
is the absolute value of the raw signed amount (so it is nonnegative), and
its type is `income` exactly when the raw amount is ≥ 0. -/
theorem C3_sign_normalization :
    (∀ (now : Nat) (raw : List RawTransaction),
      (processWithoutAnonymization now raw).length = raw.length ∧
      ∀ i (h1 : i < (processWithoutAnonymization now raw).length)
        (h2 : i < raw.length),
        0 ≤ (processWithoutAnonymization now raw)[i].amount ∧
        (processWithoutAnonymization now raw)[i].amount = |raw[i].amount| ∧
        ((processWithoutAnonymization now raw)[i].type = .income ↔
          0 ≤ raw[i].amount)) ∧
    (∀ (now : Nat) (raw : List RawTransaction) (d : AnonymizedData)
        (st : AnonymizationStore),
      anonymizeTransactions now raw = .ok (d, st) →
      d.transactions.length = raw.length ∧
      ∀ i (h1 : i < d.transactions.length) (h2 : i < raw.length),
        0 ≤ d.transactions[i].amount ∧
        d.transactions[i].amount = |raw[i].amount| ∧
        (d.transactions[i].type = .income ↔ 0 ≤ raw[i].amount)) := by
  constructor
  · intro now raw
    have hlen : (processWithoutAnonymization now raw).length = raw.length := by
      unfold processWithoutAnonymization
      simp
    refine ⟨hlen, ?_⟩
    intro i h1 h2
    have hel : (processWithoutAnonymization now raw)[i] =
        { toRawTransaction := { raw[i] with amount := |raw[i].amount| },
          id := mkTxId now i,
          merchant :=
            if strTruthy raw[i].recipient &&
              isLikelyBusiness (raw[i].recipient.getD "")
            then some (cleanMerchantName (raw[i].recipient.getD ""))
            else none,
          type := if raw[i].amount < 0 then .expense else .income,
          categorySource :=
            if strTruthy raw[i].category then some .rule else none } := by
      unfold processWithoutAnonymization
      rw [List.getElem_map]
      rw [List.getElem_enum]
    rw [hel]
    refine ⟨abs_nonneg _, rfl, ?_⟩
    simp only
    split
    · rename_i hlt
      constructor
      · intro hc
        exact absurd hc (by decide)
      · intro hge
        exact absurd hlt (not_lt.mpr hge)
    · rename_i hnlt
      constructor
      · intro _
        exact not_lt.mp hnlt
      · intro _
        rfl
  · intro now raw d st h
    unfold anonymizeTransactions at h
    dsimp only at h
    split at h
    · exact absurd h (by simp)
    · rename_i out stF hall
      injection h with hpair
      obtain ⟨hd, -⟩ := Prod.mk.injEq .. |>.mp hpair
      subst hd
      obtain ⟨hlen, hfields⟩ := anonymizeAll_spec now _ raw {} 0 out stF hall
      refine ⟨hlen, ?_⟩
      intro i h1 h2
      obtain ⟨ha, ht⟩ := hfields i h1 h2
      exact ⟨ha ▸ abs_nonneg _, ha, ht⟩

end FinKit

namespace FinKit

def c3raw : RawTransaction :=
  { date := "2024-01-01", description := "", amount := -5, currency := "EUR" }

def c3tx : Transaction :=
  { date := "2024-01-01", description := "", amount := 5, currency := "EUR",
    id := "tx_0_0", type := .expense }

def c3data : AnonymizedData := { transactions := [c3tx], mappings := [] }

/-- C3 witness: both pipeline entry points applied to a single raw
transaction of amount −5. -/
theorem C3_witness :
    anonymizeTransactions 0 [c3raw] = .ok (c3data, {}) ∧
    c3data.transactions.length = [c3raw].length ∧
    (processWithoutAnonymization 0 [c3raw]).length = [c3raw].length ∧
    0 ≤ ((processWithoutAnonymization 0 [c3raw]).get ⟨0, by decide⟩).amount := by
  have heq : anonymizeTransactions 0 [c3raw] = .ok (c3data, {}) := by rfl
  exact ⟨heq, (C3_sign_normalization.2 0 [c3raw] c3data {} heq).1,
    (C3_sign_normalization.1 0 [c3raw]).1,
    ((C3_sign_normalization.1 0 [c3raw]).2 0 (by decide) (by decide)).1⟩

end FinKit

namespace FinKit

/-! ## C5 — anonymization failure mode -/

def c5raw : RawTransaction :=
  { date := "2024-01-01", description := "", amount := 5, currency := "EUR",
    recipientIban := some "AB1" }

/-- C5: a recipient IBAN shorter than 6 characters reaches
`'*'.repeat(original.length - 6)` with a negative count, which throws a
`RangeError` — so `anonymizeTransactions` does not, in fact, never throw.
The second conjunct confirms the claim's other half: an unrecognized mapping
type degrades to the `"[REDACTED]"` marker instead of raising. -/
theorem C5_short_iban_throws :
    anonymizeTransactions 0 [c5raw] =
      .error "RangeError: Invalid count value" ∧
    (getOrCreate {} "x" "unknown-type").map (fun r => r.1) =
      .ok "[REDACTED]" := by
  exact ⟨by rfl, by rfl⟩

end FinKit

namespace FinKit

/-! ## C2 — the end-to-end two-row scenario -/

def c2rawA : RawTransaction :=
  { date := "2024-05-01", description := "Transfer to Wise", amount := -50,
    currency := "EUR", referenceAccount := some "N26" }

def c2rawB : RawTransaction :=
  { date := "2024-05-01", description := "From N26", amount := 50,
    currency := "EUR", referenceAccount := some "Wise" }

/-- C2 (counterexample): on the claim's exact two rows the pipeline detects
nothing — "Transfer to Wise" and "From N26" match neither the categorizer's
transfer patterns (`sent from`, `moved to/from`, `überweisung`, `umbuchung`)
nor the double-booking keyword list, and the reference-account names "n26"
and "wise" are too short for the account-matching branches.  Both rows come
out category "Other" with no exclusion and no pairing, in both anonymization
modes. -/
theorem C2_counterexample :
    ((processTransactions 0 [] [c2rawA, c2rawB] false).map (fun l =>
      l.map (fun t => (t.category, t.isExcluded, t.doubleBookingMatch))) =
      .ok [(some "Other", none, none), (some "Other", none, none)]) ∧
    ((processTransactions 0 [] [c2rawA, c2rawB] true).map (fun l =>
      l.map (fun t => (t.category, t.isExcluded, t.doubleBookingMatch))) =
      .ok [(some "Other", none, none), (some "Other", none, none)]) := by
  exact ⟨by rfl, by rfl⟩

def c2rawA' : RawTransaction := { c2rawA with description := "Moved to Wise" }

def c2rawB' : RawTransaction := { c2rawB with description := "Sent from N26" }

/-- C2 (amended): with descriptions the detectors actually recognize —
row (a) "Moved to Wise", row (b) "Sent from N26" — the pipeline produces
exactly the claimed output: both rows category "Transfer", row (b)
`isExcluded = true`, row (a) `isExcluded = false`, and the two
`doubleBookingMatch` fields pointing at each other; again in both
anonymization modes. -/
theorem C2_amended :
    ((processTransactions 0 [] [c2rawA', c2rawB'] false).map (fun l =>
      l.map (fun t => (t.id, t.category, t.type, t.isExcluded,
        t.doubleBookingMatch))) =
      .ok [("tx_0_0", some "Transfer", .expense, some false, some "tx_0_1"),
           ("tx_0_1", some "Transfer", .income, some true, some "tx_0_0")]) ∧
    ((processTransactions 0 [] [c2rawA', c2rawB'] true).map (fun l =>
      l.map (fun t => (t.id, t.category, t.type, t.isExcluded,
        t.doubleBookingMatch))) =
      .ok [("tx_0_0", some "Transfer", .expense, some false, some "tx_0_1"),
           ("tx_0_1", some "Transfer", .income, some true, some "tx_0_0")]) := by
  exact ⟨by rfl, by rfl⟩

end FinKit

namespace FinKit

/-! ## C10 — frame property of `detectDoubleBookings` -/

/-- The detector's marked-as-internal id list, as built in
`detectDoubleBookings` (step 1 and step 2). -/
def markedIds (transactions : List Transaction) : List String :=
  (transactions.filter (fun tx => isInternalTransfer tx
    (transactions.filterMap (fun tx =>
      if strTruthy tx.referenceAccount then
        some (lowerStr (tx.referenceAccount.getD "")) else none))
    (transactions.filterMap (fun tx =>
      if strTruthy tx.referenceAccountName then
        some (lowerStr (tx.referenceAccountName.getD "")) else none)))).map (·.id)

/-- C10: the detector returns the same number of transactions in the same
order; every transaction whose id was not marked internal is returned
unchanged, and a marked one differs from its input only in `category`,
`isTransfer`, `isExcluded` and `doubleBookingMatch`. -/
theorem C10_frame (transactions : List Transaction) :
    (detectDoubleBookings transactions).transactions.length =
      transactions.length ∧
    ∀ i (h1 : i < (detectDoubleBookings transactions).transactions.length)
      (h2 : i < transactions.length),
      ((detectDoubleBookings transactions).transactions[i] = transactions[i] ∨
        ∃ dbm, (detectDoubleBookings transactions).transactions[i] =
          { transactions[i] with
            category := some "Transfer",
            isTransfer := some true,
            isExcluded := some (transactions[i].type = TxType.income),
            doubleBookingMatch := dbm }) ∧
      (transactions[i].id ∉ markedIds transactions →
        (detectDoubleBookings transactions).transactions[i] =
          transactions[i]) := by
  constructor
  · unfold detectDoubleBookings
    simp
  · intro i h1 h2
    have hel : (detectDoubleBookings transactions).transactions[i] =
        annotateInternal (detectDoubleBookings transactions).pairs
          ((transactions.foldl (fun gs tx => addToGroup gs tx.date tx) []).foldl
            (pairDay (markedIds transactions)) ([], [])).2
          (markedIds transactions) transactions[i] := by
      unfold detectDoubleBookings markedIds
      simp only [List.getElem_map]
    rw [hel]
    unfold annotateInternal
    by_cases hmem : transactions[i].id ∈ markedIds transactions
    · have hcontains : (markedIds transactions).contains transactions[i].id = true := by
        exact List.elem_eq_true_of_mem hmem
      rw [if_pos hcontains]
      constructor
      · right
        exact ⟨_, rfl⟩
      · intro hnot
        exact absurd hmem hnot
    · have hcontains : (markedIds transactions).contains transactions[i].id = false := by
        rw [List.contains_eq_any_beq]
        rw [List.any_eq_false]
        intro x hx
        simp only [beq_iff_eq]
        intro hxe
        exact hmem (hxe ▸ hx)
      rw [if_neg (by rw [hcontains]; decide)]
      exact ⟨Or.inl rfl, fun _ => rfl⟩

/-- C10 witness: the frame property applied to a singleton list containing a
source-flagged transfer (which the detector marks and annotates). -/
theorem C10_witness :
    (detectDoubleBookings [c3tx]).transactions.length = [c3tx].length ∧
    ((detectDoubleBookings [c3tx]).transactions.get ⟨0, by decide⟩ = c3tx ∨
      ∃ dbm, (detectDoubleBookings [c3tx]).transactions.get ⟨0, by decide⟩ =
        { c3tx with
          category := some "Transfer",
          isTransfer := some true,
          isExcluded := some (c3tx.type = TxType.income),
          doubleBookingMatch := dbm }) :=
  ⟨(C10_frame [c3tx]).1,
   (((C10_frame [c3tx]).2 0 (by decide) (by decide)).1)⟩

end FinKit

namespace FinKit

/-! ## C7 — properties of the produced pairs -/

/-- The claim's per-pair property. -/
def pairOk (p : DoubleBookingPair) : Prop :=
  p.outgoing.type = .expense ∧ p.incoming.type = .income ∧
  |p.outgoing.amount - p.incoming.amount| ≤ 1/100 ∧
  p.outgoing.date = p.incoming.date

/-- Two pairs share no transaction id. -/
def pairsDisjoint (p q : DoubleBookingPair) : Prop :=
  p.outgoing.id ≠ q.outgoing.id ∧ p.outgoing.id ≠ q.incoming.id ∧
  p.incoming.id ≠ q.outgoing.id ∧ p.incoming.id ≠ q.incoming.id

theorem contains_false_not_mem {l : List String} {a : String}
    (h : l.contains a = false) : a ∉ l := by
  intro hmem
  have ht : l.contains a = true := List.elem_eq_true_of_mem hmem
  rw [ht] at h
  exact absurd h (by decide)

/-- Invariant carried through the pairing fold. -/
def PairInv (st : List DoubleBookingPair × List String) : Prop :=
  (∀ p ∈ st.1, pairOk p) ∧
  (∀ p ∈ st.1, p.outgoing.id ∈ st.2 ∧ p.incoming.id ∈ st.2) ∧
  st.1.Pairwise pairsDisjoint

theorem addToGroup_dates (gs : List (String × List Transaction)) (k : String)
    (tx : Transaction) (hgs : ∀ g ∈ gs, ∀ t ∈ g.2, t.date = g.1)
    (htx : tx.date = k) :
    ∀ g ∈ addToGroup gs k tx, ∀ t ∈ g.2, t.date = g.1 := by
  intro g hg t ht
  unfold addToGroup at hg
  split at hg
  · obtain ⟨g0, hg0, rfl⟩ := List.mem_map.mp hg
    by_cases hk : g0.1 = k
    · rw [if_pos hk] at ht ⊢
      simp only at ht ⊢
      rcases List.mem_append.mp ht with hold | hnew
      · exact hgs g0 hg0 t hold
      · rw [List.mem_singleton.mp hnew, htx, hk]
    · rw [if_neg hk] at ht ⊢
      exact hgs g0 hg0 t ht
  · rcases List.mem_append.mp hg with hold | hnew
    · exact hgs g hold t ht
    · rw [List.mem_singleton.mp hnew] at ht ⊢
      rw [List.mem_singleton.mp ht, htx]

theorem byDate_dates (transactions : List Transaction) :
    ∀ gs, (∀ g ∈ gs, ∀ t ∈ g.2, t.date = g.1) →
    ∀ g ∈ transactions.foldl (fun gs tx => addToGroup gs tx.date tx) gs,
      ∀ t ∈ g.2, t.date = g.1 := by
  induction transactions with
  | nil => intro gs hgs; exact hgs
  | cons tx rest ih =>
    intro gs hgs
    rw [List.foldl_cons]
    exact ih (addToGroup gs tx.date tx) (addToGroup_dates gs tx.date tx hgs rfl)

theorem pairExpense_inv (incomes : List Transaction) (date : String)
    (st : List DoubleBookingPair × List String) (e : Transaction)
    (hinc : ∀ t ∈ incomes, t.type = .income ∧ t.date = date)
    (he : e.type = .expense) (hed : e.date = date)
    (hst : PairInv st) :
    PairInv (pairExpense incomes date st e) := by
  obtain ⟨pairs, paired⟩ := st
  obtain ⟨hok, hmem, hdisj⟩ := hst
  simp only at hok hmem hdisj
  unfold pairExpense
  simp only
  split
  · exact ⟨hok, hmem, hdisj⟩
  · rename_i heid
    split
    · rename_i income hfind
      have hprop := List.find?_some hfind
      have hincmem := List.mem_of_find?_eq_some hfind
      rw [Bool.and_eq_true] at hprop
      obtain ⟨hnp, hamt⟩ := hprop
      have hnpmem : income.id ∉ paired :=
        contains_false_not_mem (by simpa using hnp)
      have hemem : e.id ∉ paired :=
        contains_false_not_mem (by simpa using heid)
      have hamt2 : |e.amount - income.amount| ≤ 1/100 := of_decide_eq_true hamt
      obtain ⟨hity, hidt⟩ := hinc income hincmem
      refine ⟨?_, ?_, ?_⟩
      · intro p hp
        simp only at hp
        rcases List.mem_append.mp hp with hold | hnew
        · exact hok p hold
        · rw [List.mem_singleton.mp hnew]
          exact ⟨he, hity, hamt2, hed.trans hidt.symm⟩
      · intro p hp
        simp only at hp ⊢
        rcases List.mem_append.mp hp with hold | hnew
        · obtain ⟨h1, h2⟩ := hmem p hold
          exact ⟨List.mem_append_left _ h1, List.mem_append_left _ h2⟩
        · rw [List.mem_singleton.mp hnew]
          refine ⟨List.mem_append_right _ ?_, List.mem_append_right _ ?_⟩
          · exact List.mem_cons_self _ _
          · exact List.mem_cons_of_mem _ (List.mem_singleton.mpr rfl)
      · simp only
        rw [List.pairwise_append]
        refine ⟨hdisj, List.pairwise_singleton _ _, ?_⟩
        intro p hp q hq
        rw [List.mem_singleton.mp hq]
        obtain ⟨h1, h2⟩ := hmem p hp
        exact ⟨fun hc => hemem (hc ▸ h1), fun hc => hnpmem (hc ▸ h1),
               fun hc => hemem (hc ▸ h2), fun hc => hnpmem (hc ▸ h2)⟩
    · exact ⟨hok, hmem, hdisj⟩

theorem foldl_pairExpense_inv (incomes : List Transaction) (date : String)
    (hinc : ∀ t ∈ incomes, t.type = .income ∧ t.date = date) :
    ∀ (expenses : List Transaction) (st : List DoubleBookingPair × List String),
      (∀ t ∈ expenses, t.type = .expense ∧ t.date = date) → PairInv st →
      PairInv (expenses.foldl (pairExpense incomes date) st) := by
  intro expenses
  induction expenses with
  | nil => intro st _ hst; exact hst
  | cons e rest ih =>
    intro st hexp hst
    rw [List.foldl_cons]
    obtain ⟨hety, hedt⟩ := hexp e (List.mem_cons_self e rest)
    exact ih _ (fun t ht => hexp t (List.mem_cons_of_mem e ht))
      (pairExpense_inv incomes date st e hinc hety hedt hst)

theorem pairDay_inv (marked : List String)
    (st : List DoubleBookingPair × List String)
    (g : String × List Transaction)
    (hg : ∀ t ∈ g.2, t.date = g.1) (hst : PairInv st) :
    PairInv (pairDay marked st g) := by
  unfold pairDay
  refine foldl_pairExpense_inv _ g.1 ?_ _ st ?_ hst
  · intro t ht
    obtain ⟨htm, htp⟩ := List.mem_filter.mp ht
    rw [Bool.and_eq_true, decide_eq_true_eq] at htp
    exact ⟨htp.1, hg t htm⟩
  · intro t ht
    obtain ⟨htm, htp⟩ := List.mem_filter.mp ht
    rw [Bool.and_eq_true, decide_eq_true_eq] at htp
    exact ⟨htp.1, hg t htm⟩

/-- Folding `pairDay` over the date groups preserves the invariant. -/
theorem foldl_pairDay_inv (marked : List String) :
    ∀ (groups : List (String × List Transaction))
      (st : List DoubleBookingPair × List String),
      (∀ g ∈ groups, ∀ t ∈ g.2, t.date = g.1) → PairInv st →
      PairInv (groups.foldl (pairDay marked) st) := by
  intro groups
  induction groups with
  | nil => intro st _ hst; exact hst
  | cons g rest ih =>
    intro st hg hst
    rw [List.foldl_cons]
    exact ih _ (fun g2 hg2 => hg g2 (List.mem_cons_of_mem _ hg2))
      (pairDay_inv marked st g (hg g (List.mem_cons_self g rest)) hst)

/-- C7: every pair produced by the detector has an expense outgoing side, an
income incoming side, amounts within 0.01 of each other, and equal dates;
and no transaction id occurs in more than one pair. -/
theorem C7_pairing (transactions : List Transaction) :
    (∀ p ∈ (detectDoubleBookings transactions).pairs, pairOk p) ∧
    (detectDoubleBookings transactions).pairs.Pairwise pairsDisjoint := by
  have hdates := byDate_dates transactions [] (by intro g hg; simp at hg)
  have hinv := foldl_pairDay_inv (markedIds transactions)
    (transactions.foldl (fun gs tx => addToGroup gs tx.date tx) []) ([], [])
    hdates ⟨by simp, by simp, List.Pairwise.nil⟩
  have hpairs : (detectDoubleBookings transactions).pairs =
      ((transactions.foldl (fun gs tx => addToGroup gs tx.date tx) []).foldl
        (pairDay (markedIds transactions)) ([], [])).1 := by
    unfold detectDoubleBookings markedIds
    rfl
  rw [hpairs]
  exact ⟨hinv.1, hinv.2.2⟩

end FinKit

namespace FinKit

def c7t1 : Transaction :=
  { date := "2024-05-01", description := "", amount := 50, currency := "EUR",
    isTransfer := some true, id := "a", type := .expense }

def c7t2 : Transaction :=
  { date := "2024-05-01", description := "", amount := 50, currency := "EUR",
    isTransfer := some true, id := "b", type := .income }

/-- C7 witness: the pair property applied to the one pair produced from a
matched expense/income couple. -/
theorem C7_witness :
    pairOk { outgoing := c7t1, incoming := c7t2, amount := 50,
             date := "2024-05-01" } :=
  (C7_pairing [c7t1, c7t2]).1 _ (by decide)

end FinKit

namespace FinKit

/-! ## C1 — the transfer-exclusion invariant -/

theorem firstSome?_some {α β : Type} {f : α → Option β} {l : List α} {b : β}
    (h : firstSome? f l = some b) : ∃ a ∈ l, f a = some b := by
  induction l with
  | nil => simp [firstSome?] at h
  | cons x t ih =>
    unfold firstSome? at h
    cases hf : f x with
    | some v =>
      rw [hf] at h
      injection h with h
      exact ⟨x, List.mem_cons_self x t, h ▸ hf⟩
    | none =>
      rw [hf] at h
      obtain ⟨a, ha, hfa⟩ := ih h
      exact ⟨a, List.mem_cons_of_mem x ha, hfa⟩

theorem assocGet_mem_values {α : Type} {m : List (String × α)} {k : String}
    {v : α} (h : assocGet m k = some v) : ∃ p ∈ m, p.2 = v := by
  unfold assocGet at h
  cases hf : m.find? (fun p => p.1 = k) with
  | none => rw [hf] at h; simp at h
  | some p =>
    rw [hf] at h
    simp only [Option.map_some', Option.some.injEq] at h
    exact ⟨p, List.mem_of_find?_eq_some hf, h⟩

theorem truthyHit_some {o : Option String} {c : String}
    (h : truthyHit o = some c) : o = some c := by
  unfold truthyHit at h
  cases o with
  | none => simp at h
  | some s => split at h <;> simp_all

theorem learnedLookupStep_mem {learned : List (String × String)}
    {o : Option String} {c : String}
    (h : learnedLookupStep learned o = some c) : ∃ p ∈ learned, p.2 = c := by
  unfold learnedLookupStep at h
  split at h
  · exact assocGet_mem_values (truthyHit_some h)
  · exact absurd h (by simp)

theorem learnedDescStep_mem {learned : List (String × String)} {d c : String}
    (h : learnedDescStep learned d = some c) : ∃ p ∈ learned, p.2 = c := by
  unfold learnedDescStep at h
  cases hf : learned.find? (fun p => strIncludes d p.1 && p.1.length > 3) with
  | none => rw [hf] at h; simp at h
  | some p =>
    rw [hf] at h
    simp only [Option.map_some', Option.some.injEq] at h
    exact ⟨p, List.mem_of_find?_eq_some hf, h⟩

theorem learnedVariationStep_mem {learned : List (String × String)}
    {v c : String} (h : learnedVariationStep learned v = some c) :
    ∃ p ∈ learned, p.2 = c := by
  unfold learnedVariationStep at h
  split at h
  · rename_i heq
    injection h with h
    subst h
    exact assocGet_mem_values (truthyHit_some heq)
  · cases hf : learned.find? (fun p =>
        (strIncludes v p.1 && p.1.length > 3) ||
        (strIncludes p.1 v && v.length > 3)) with
    | none => rw [hf] at h; simp at h
    | some p =>
      rw [hf] at h
      simp only [Option.map_some', Option.some.injEq] at h
      exact ⟨p, List.mem_of_find?_eq_some hf, h⟩

theorem findLearnedCategory_mem {learned : List (String × String)}
    {tx : Transaction} {c : String}
    (h : findLearnedCategory learned tx = some c) : ∃ p ∈ learned, p.2 = c := by
  unfold findLearnedCategory at h
  split at h
  · exact absurd h (by simp)
  · split at h
    · rename_i c0 heq
      injection h with h
      exact h ▸ learnedLookupStep_mem heq
    · split at h
      · rename_i c0 heq
        injection h with h
        exact h ▸ learnedLookupStep_mem heq
      · split at h
        · rename_i c0 heq
          injection h with h
          exact h ▸ learnedDescStep_mem heq
        · obtain ⟨text, -, htext⟩ := firstSome?_some h
          obtain ⟨variation, -, hvar⟩ := firstSome?_some htext
          exact learnedVariationStep_mem hvar

theorem german_lookup_mem {combined c2 m : String}
    (h : (match truthyHit (assocGet GERMAN_CATEGORY_MAP combined) with
          | some m0 => some m0
          | none => assocGet GERMAN_CATEGORY_MAP c2) = some m) :
    ∃ p ∈ GERMAN_CATEGORY_MAP, p.2 = m := by
  split at h
  · rename_i heq
    injection h with h
    exact h ▸ assocGet_mem_values (truthyHit_some heq)
  · exact assocGet_mem_values h

theorem mapGermanCategory_mem {c s : Option String} {m : String}
    (h : mapGermanCategory c s = some m) :
    ∃ p ∈ GERMAN_CATEGORY_MAP, p.2 = m := by
  unfold mapGermanCategory at h
  split at h
  · exact absurd h (by simp)
  · exact german_lookup_mem h

theorem german_map_no_transfer :
    ∀ p ∈ GERMAN_CATEGORY_MAP, p.2 ≠ "Transfer" := by decide

theorem merchant_rules_no_transfer :
    ∀ r ∈ MERCHANT_RULES, r.category ≠ "Transfer" := by
  intro r hr
  fin_cases hr <;> decide

theorem strOr_eq_of_ne {o : Option String} {d v : String}
    (h : strOr o d = v) (hd : d ≠ v) : o = some v := by
  cases o with
  | none =>
    rw [show strOr none d = d from rfl] at h
    exact absurd h hd
  | some s =>
    rw [show strOr (some s) d = if s.isEmpty then d else s from rfl] at h
    split at h
    · exact absurd h hd
    · rw [h]

/-- If the categorizer emits category "Transfer" and no learned mapping maps
to "Transfer", then the `isTransfer` flag is set. -/
theorem categorizeOne_transfer_isTransfer (learned : List (String × String))
    (tx : Transaction) (hl : ∀ p ∈ learned, p.2 ≠ "Transfer")
    (h : (categorizeOne learned tx).category = some "Transfer") :
    (categorizeOne learned tx).isTransfer = some true := by
  unfold categorizeOne at h ⊢
  by_cases h1 : boolTruthy tx.isTransfer = true
  · rw [if_pos h1] at h ⊢
    simp only
    cases htx : tx.isTransfer with
    | none => rw [htx] at h1; exact absurd h1 (by decide)
    | some b =>
      rw [htx] at h1
      simp only [boolTruthy] at h1
      rw [h1]
  · rw [if_neg h1] at h ⊢
    by_cases h2 : (TRANSFER_PATTERNS.any fun p => reTest true p tx.description) = true
    · rw [if_pos h2] at h ⊢
    · rw [if_neg h2] at h ⊢
      cases hf : findLearnedCategory learned tx with
      | some c =>
        rw [hf] at h
        injection h with h
        obtain ⟨p, hp, hpc⟩ := findLearnedCategory_mem hf
        exact absurd (hpc.trans h) (hl p hp)
      | none =>
        rw [hf] at h
        dsimp only at h
        by_cases h3 : (strTruthy (mapGermanCategory tx.category tx.subcategory) &&
            decide (mapGermanCategory tx.category tx.subcategory ≠ some "Other")) = true
        · rw [if_pos h3] at h
          obtain ⟨p, hp, hpc⟩ := mapGermanCategory_mem h
          exact absurd hpc (german_map_no_transfer p hp)
        · rw [if_neg h3] at h
          cases hr : MERCHANT_RULES.find? (fun r => reTest true r.pattern
              (tx.description ++ " " ++ strOr tx.recipient "" ++ " " ++
               strOr tx.category "" ++ " " ++ strOr tx.subcategory "")) with
          | some rule =>
            rw [hr] at h
            injection h with h
            exact absurd h
              (merchant_rules_no_transfer rule (List.mem_of_find?_eq_some hr))
          | none =>
            rw [hr] at h
            injection h with h
            have := strOr_eq_of_ne h (by decide)
            obtain ⟨p, hp, hpc⟩ := mapGermanCategory_mem this
            exact absurd hpc (german_map_no_transfer p hp)

end FinKit

namespace FinKit

/-! ## C1 — transfer-income exclusion invariant -/

theorem isInternalTransfer_of_isTransfer (tx : Transaction)
    (ua un : List String) (h : tx.isTransfer = some true) :
    isInternalTransfer tx ua un = true := by
  have hb : boolTruthy tx.isTransfer = true := by rw [h]; rfl
  unfold isInternalTransfer
  rw [if_pos hb]

theorem mem_markedIds (txs : List Transaction) (tx : Transaction)
    (hm : tx ∈ txs) (hi : tx.isTransfer = some true) :
    tx.id ∈ markedIds txs := by
  unfold markedIds
  exact List.mem_map_of_mem _
    (List.mem_filter.mpr ⟨hm, isInternalTransfer_of_isTransfer tx _ _ hi⟩)

/-- If every input transaction with category "Transfer" has its `isTransfer`
flag set, then every output transaction of the double-booking detector with
category "Transfer" and type income is excluded. -/
theorem detectDoubleBookings_excluded (txs : List Transaction)
    (hpre : ∀ t ∈ txs, t.category = some "Transfer" → t.isTransfer = some true) :
    ∀ t ∈ (detectDoubleBookings txs).transactions,
      t.category = some "Transfer" → t.type = TxType.income →
      t.isExcluded = some true := by
  intro t ht hc hty
  have hrw : (detectDoubleBookings txs).transactions = txs.map
      (annotateInternal (detectDoubleBookings txs).pairs
        ((txs.foldl (fun gs tx => addToGroup gs tx.date tx) []).foldl
          (pairDay (markedIds txs)) ([], [])).2
        (markedIds txs)) := by
    unfold detectDoubleBookings markedIds
    rfl
  rw [hrw] at ht
  obtain ⟨t0, ht0, heq⟩ := List.mem_map.1 ht
  subst heq
  unfold annotateInternal at hc hty ⊢
  dsimp only at hc hty ⊢
  by_cases hmark : ((markedIds txs).contains t0.id) = true
  · rw [if_pos hmark] at hty ⊢
    dsimp only at hty ⊢
    rw [hty]
    decide
  · rw [if_neg hmark] at hc
    exact absurd
      (List.elem_eq_true_of_mem (mem_markedIds txs t0 ht0 (hpre t0 ht0 hc)))
      hmark

/-- The recurrence detector changes only `isRecurring` and
`recurringFrequency`: category, type and exclusion flag are preserved. -/
theorem detectRecurring_preserves (txs : List Transaction) :
    ∀ t ∈ detectRecurring txs, ∃ t0 ∈ txs,
      t.category = t0.category ∧ t.type = t0.type ∧
      t.isExcluded = t0.isExcluded := by
  intro t ht
  unfold detectRecurring at ht
  dsimp only at ht
  obtain ⟨t0, ht0, heq⟩ := List.mem_map.1 ht
  subst heq
  refine ⟨t0, ht0, ?_⟩
  dsimp only
  split
  · exact ⟨rfl, rfl, rfl⟩
  · exact ⟨rfl, rfl, rfl⟩

/-- C1 (amended): the invariant holds provided no learned mapping maps to
"Transfer" — for every output of the full pipeline, category "Transfer"
and type income imply `isExcluded = some true`. -/
theorem C1_amended (now : Nat) (learned : List (String × String))
    (raw : List RawTransaction) (anonymize : Bool) (out : List Transaction)
    (hl : ∀ p ∈ learned, p.2 ≠ "Transfer")
    (hok : processTransactions now learned raw anonymize = .ok out) :
    ∀ t ∈ out, t.category = some "Transfer" → t.type = TxType.income →
      t.isExcluded = some true := by
  intro t ht hc hty
  unfold processTransactions at hok
  split at hok
  · exact Except.noConfusion hok
  · rename_i processed heq
    dsimp only at hok
    injection hok with hok
    subst hok
    have hpre : ∀ u ∈ categorizeWithRules learned processed,
        u.category = some "Transfer" → u.isTransfer = some true := by
      intro u hu hucat
      obtain ⟨u0, _, hueq⟩ := List.mem_map.1 hu
      subst hueq
      exact categorizeOne_transfer_isTransfer learned u0 hl hucat
    obtain ⟨t0, ht0, hcat, htype, hexc⟩ := detectRecurring_preserves _ t ht
    rw [hcat] at hc
    rw [htype] at hty
    rw [hexc]
    exact detectDoubleBookings_excluded _ hpre t0 ht0 hc hty

def c1craw : RawTransaction :=
  { date := "2024-01-01", description := "x", amount := 5, currency := "EUR",
    recipient := some "MyBroker" }

/-- C1 (counterexample): with a learned mapping whose category is
"Transfer", the pipeline emits an income transaction with category
"Transfer" whose `isExcluded` flag is never set — the learned branch of the
categorizer does not raise `isTransfer`, so the double-booking detector
never marks the transaction. -/
theorem C1_counterexample :
    (processTransactions 0 (setLearnedMappings [("MyBroker", "Transfer")])
        [c1craw] false).map
      (fun l => l.map (fun t => (t.category, t.type, t.isExcluded))) =
      .ok [(some "Transfer", TxType.income, (none : Option Bool))] ∧
    (none : Option Bool) ≠ some true := by
  exact ⟨by rfl, by decide⟩

def c1wraw : RawTransaction :=
  { date := "2024-01-01", description := "", amount := 5, currency := "EUR",
    isTransfer := some true }

def c1wtx : Transaction :=
  { date := "2024-01-01", description := "", amount := 5, currency := "EUR",
    category := some "Transfer", isTransfer := some true,
    id := "tx_0_0", type := .income, isExcluded := some true,
    categorySource := some .rule }

/-- C1 witness: the amended invariant applied to a one-row batch whose raw
transfer flag is set. -/
theorem C1_witness :
    (∀ p ∈ ([] : List (String × String)), p.2 ≠ "Transfer") ∧
    c1wtx.isExcluded = some true := by
  refine ⟨fun p hp => absurd hp (List.not_mem_nil p), ?_⟩
  exact C1_amended 0 [] [c1wraw] false [c1wtx]
    (fun p hp => absurd hp (List.not_mem_nil p)) (by rfl) c1wtx
    (List.mem_singleton.mpr rfl) (by rfl) (by rfl)

end FinKit

namespace FinKit

/-! ## C6 — reverse-map invertibility -/

theorem assocGet_cons (p : String × α) (m : List (String × α)) (k : String) :
    assocGet (p :: m) k = if p.1 = k then some p.2 else assocGet m k := by
  unfold assocGet
  by_cases hp : p.1 = k
  · rw [List.find?_cons_of_pos _ (by simpa using hp), if_pos hp]
    rfl
  · rw [List.find?_cons_of_neg _ (by simpa using hp), if_neg hp]

theorem assocGet_map_overwrite (rest : List (String × α)) (a x : String)
    (o : α) (hx : ¬ a = x) :
    assocGet (rest.map (fun p => if p.1 = a then (a, o) else p)) x =
      assocGet rest x := by
  induction rest with
  | nil => rfl
  | cons q rest ih =>
    simp only [List.map_cons]
    by_cases hq : q.1 = a
    · rw [if_pos hq, assocGet_cons, assocGet_cons]
      rw [if_neg hx, if_neg (fun hqx => hx (hq ▸ hqx))]
      exact ih
    · rw [if_neg hq, assocGet_cons, assocGet_cons, ih]

theorem assocGet_map_overwrite_self (rest : List (String × α)) (a : String)
    (o : α) :
    rest.any (fun p => p.1 = a) = true →
    assocGet (rest.map (fun p => if p.1 = a then (a, o) else p)) a = some o := by
  induction rest with
  | nil => intro hany; simp at hany
  | cons q rest ih =>
    intro hany
    rw [List.any_cons] at hany
    simp only [List.map_cons]
    by_cases hq : q.1 = a
    · rw [if_pos hq, assocGet_cons, if_pos rfl]
    · rw [if_neg hq, assocGet_cons, if_neg hq]
      refine ih ?_
      rw [Bool.or_eq_true] at hany
      cases hany with
      | inl h => exact absurd (of_decide_eq_true h) hq
      | inr h => exact h

theorem assocGet_append_single (rm : List (String × α)) (a x : String) (o : α) :
    rm.any (fun p => p.1 = a) = false →
    assocGet (rm ++ [(a, o)]) x = if a = x then some o else assocGet rm x := by
  induction rm with
  | nil =>
    intro _
    rw [List.nil_append, assocGet_cons]
  | cons q rest ih =>
    intro hnone
    rw [List.any_cons, Bool.or_eq_false_iff] at hnone
    rw [List.cons_append, assocGet_cons, assocGet_cons]
    have hqa : ¬ q.1 = a := by
      have h1 := hnone.1
      rw [decide_eq_false_iff_not] at h1
      exact h1
    by_cases hqx : q.1 = x
    · rw [if_pos hqx, if_pos hqx,
        if_neg (fun hax => hqa (hqx.trans hax.symm))]
    · rw [if_neg hqx, if_neg hqx, ih hnone.2]

/-- `Map.set` and lookup: the new key reads back the new value, any other
key is unaffected. -/
theorem assocGet_mapSet (rm : List (String × α)) (a x : String) (o : α) :
    assocGet (mapSet rm a o) x = if a = x then some o else assocGet rm x := by
  unfold mapSet
  split
  · rename_i hany
    by_cases hax : a = x
    · subst hax
      rw [if_pos rfl]
      exact assocGet_map_overwrite_self rm a o hany
    · rw [if_neg hax]
      exact assocGet_map_overwrite rm a x o hax
  · rename_i hany
    exact assocGet_append_single rm a x o (Bool.of_not_eq_true hany)

theorem any_eq_false_of_assocGet_none (m : List (String × α)) (k : String)
    (h : assocGet m k = none) : m.any (fun p => p.1 = k) = false := by
  unfold assocGet at h
  rw [Option.map_eq_none'] at h
  rw [List.any_eq_false]
  intro p hp hpk
  rw [List.find?_eq_none] at h
  exact absurd hpk (by simpa using h p hp)

theorem mapSet_eq_append (m : List (String × α)) (k : String) (v : α)
    (h : m.any (fun p => p.1 = k) = false) :
    mapSet m k v = m ++ [(k, v)] := by
  unfold mapSet
  rw [h]
  rfl

/-- The reverse-map invariant: every stored mapping's anonymized value looks
up to the original of SOME stored mapping with that same anonymized value
(the most recently created one). -/
def StoreInv (st : AnonymizationStore) : Prop :=
  ∀ m ∈ st.mappings.map (fun p => p.2),
    ∃ m' ∈ st.mappings.map (fun p => p.2),
      m'.anonymized = m.anonymized ∧
      assocGet st.reverseMap m.anonymized = some m'.original

theorem getOrCreate_inv (st : AnonymizationStore) (original ty a : String)
    (st' : AnonymizationStore)
    (h : getOrCreate st original ty = .ok (a, st'))
    (hinv : StoreInv st) : StoreInv st' := by
  unfold getOrCreate at h
  dsimp only at h
  split at h
  · injection h with h
    injection h with h1 h2
    subst h2
    exact hinv
  · rename_i hget
    split at h
    · exact Except.noConfusion h
    · rename_i anonymized counters heq
      injection h with h
      injection h with h1 h2
      subst h1 h2
      have hany : st.mappings.any
          (fun p => p.1 = (ty ++ ":" ++ original)) = false :=
        any_eq_false_of_assocGet_none _ _ hget
      rw [mapSet_eq_append _ _ _ hany]
      intro m hm
      rw [List.map_append] at hm
      rcases List.mem_append.1 hm with hm | hm
      · obtain ⟨m', hm', hanon, hrev⟩ := hinv m hm
        by_cases hax : anonymized = m.anonymized
        · refine ⟨⟨original, anonymized, ty⟩, ?_, hax, ?_⟩
          · rw [List.map_append]
            exact List.mem_append.2 (Or.inr (by simp))
          · rw [assocGet_mapSet, if_pos hax]
        · refine ⟨m', ?_, hanon, ?_⟩
          · rw [List.map_append]
            exact List.mem_append.2 (Or.inl hm')
          · rw [assocGet_mapSet, if_neg hax]
            exact hrev
      · simp only [List.map_cons, List.map_nil, List.mem_singleton] at hm
        subst hm
        refine ⟨⟨original, anonymized, ty⟩, ?_, rfl, ?_⟩
        · rw [List.map_append]
          exact List.mem_append.2 (Or.inr (by simp))
        · rw [assocGet_mapSet, if_pos rfl]

theorem replaceWithStore_inv (ty : String) (st : AnonymizationStore)
    (m : List Char) (r : List Char) (st' : AnonymizationStore)
    (h : replaceWithStore ty st m = .ok (r, st')) (hinv : StoreInv st) :
    StoreInv st' := by
  unfold replaceWithStore at h
  split at h
  · exact Except.noConfusion h
  · rename_i a st'' heq
    injection h with h
    injection h with h1 h2
    subst h2
    exact getOrCreate_inv st _ ty a st'' heq hinv

theorem reReplaceStGo_inv (ci : Bool) (re : RE)
    (f : AnonymizationStore → List Char →
      Except String (List Char × AnonymizationStore))
    (hf : ∀ st m r st', f st m = .ok (r, st') → StoreInv st → StoreInv st')
    (fuel : Nat) :
    ∀ st prev s out st',
      reReplaceStGo ci re f fuel st prev s = .ok (out, st') →
      StoreInv st → StoreInv st' := by
  induction fuel with
  | zero =>
    intro st prev s out st' h hinv
    injection h with h
    injection h with h1 h2
    subst h2
    exact hinv
  | succ fuel ih =>
    intro st prev s out st' h hinv
    unfold reReplaceStGo at h
    split at h
    · injection h with h
      injection h with h1 h2
      subst h2
      exact hinv
    · rename_i preRev matched rest hfind
      split at h
      · injection h with h
        injection h with h1 h2
        subst h2
        exact hinv
      · split at h
        · exact Except.noConfusion h
        · rename_i rep st1 heqf
          split at h
          · exact Except.noConfusion h
          · rename_i tail st2 heqr
            injection h with h
            injection h with h1 h2
            subst h2
            exact ih st1 _ _ _ _ heqr (hf st matched rep st1 heqf hinv)

theorem reReplaceSt_inv (ci : Bool) (re : RE)
    (f : AnonymizationStore → List Char →
      Except String (List Char × AnonymizationStore))
    (hf : ∀ st m r st', f st m = .ok (r, st') → StoreInv st → StoreInv st')
    (st : AnonymizationStore) (s : List Char) (out : List Char)
    (st' : AnonymizationStore)
    (h : reReplaceSt ci re f st s = .ok (out, st')) (hinv : StoreInv st) :
    StoreInv st' :=
  reReplaceStGo_inv ci re f hf (s.length + 1) st none s out st' h hinv

theorem anonNameStep_inv (acc : List Char × AnonymizationStore) (name : String)
    (out : List Char × AnonymizationStore)
    (h : anonNameStep acc name = .ok out) (hinv : StoreInv acc.2) :
    StoreInv out.2 := by
  unfold anonNameStep at h
  split at h
  · split at h
    · exact Except.noConfusion h
    · rename_i anon st' heq
      injection h with h
      subst h
      exact getOrCreate_inv acc.2 _ _ anon st' heq hinv
  · injection h with h
    subst h
    exact hinv

theorem except_bind_ok (a : α) (f : α → Except ε β) :
    (Except.ok a >>= f) = f a := rfl

theorem anonNameStep_foldlM_inv (names : List String) :
    ∀ (acc out : List Char × AnonymizationStore),
      names.foldlM anonNameStep acc = .ok out →
      StoreInv acc.2 → StoreInv out.2 := by
  induction names with
  | nil =>
    intro acc out h hinv
    injection h with h
    subst h
    exact hinv
  | cons name rest ih =>
    intro acc out h hinv
    rw [List.foldlM_cons] at h
    cases hstep : anonNameStep acc name with
    | error e =>
      rw [hstep] at h
      exact Except.noConfusion h
    | ok acc' =>
      rw [hstep, except_bind_ok] at h
      exact ih acc' out h (anonNameStep_inv acc name acc' hstep hinv)

theorem anonymizeText_inv (st : AnonymizationStore) (text : String)
    (names : List String) (out : String) (st' : AnonymizationStore)
    (h : anonymizeText st text names = .ok (out, st')) (hinv : StoreInv st) :
    StoreInv st' := by
  unfold anonymizeText at h
  split at h
  · injection h with h
    injection h with h1 h2
    subst h2
    exact hinv
  · split at h
    · exact Except.noConfusion h
    · rename_i r1 st1 h1
      split at h
      · exact Except.noConfusion h
      · rename_i r2 st2 h2
        split at h
        · exact Except.noConfusion h
        · rename_i r3 st3 h3
          split at h
          · exact Except.noConfusion h
          · rename_i r4 st4 h4
            injection h with h
            injection h with ha hb
            subst hb
            have i1 := reReplaceSt_inv false PAT_IBAN (replaceWithStore "iban")
              (fun st m r st' h hi => replaceWithStore_inv "iban" st m r st' h hi)
              st text.toList r1 st1 h1 hinv
            have i2 := reReplaceSt_inv false PAT_EMAIL (replaceWithStore "email")
              (fun st m r st' h hi => replaceWithStore_inv "email" st m r st' h hi)
              st1 r1 r2 st2 h2 i1
            have i3 := reReplaceSt_inv false PAT_PHONE (replaceWithStore "phone")
              (fun st m r st' h hi => replaceWithStore_inv "phone" st m r st' h hi)
              st2 r2 r3 st3 h3 i2
            exact anonNameStep_foldlM_inv names (r3, st3) (r4, st4) h4 i3

theorem anonymizeOne_inv (now : Nat) (names : List String)
    (st : AnonymizationStore) (index : Nat) (raw : RawTransaction)
    (t : Transaction) (st' : AnonymizationStore)
    (h : anonymizeOne now names st index raw = .ok (t, st'))
    (hinv : StoreInv st) : StoreInv st' := by
  unfold anonymizeOne at h
  split at h
  · exact Except.noConfusion h
  · rename_i rec1 st1 heq1
    have hinv1 : StoreInv st1 := by
      split at heq1
      · split at heq1
        · injection heq1 with heq1
          injection heq1 with ha hb
          subst hb
          exact hinv
        · split at heq1
          · exact Except.noConfusion heq1
          · rename_i a st2 heq
            injection heq1 with heq1
            injection heq1 with ha hb
            subst hb
            exact getOrCreate_inv st _ _ a st2 heq hinv
      · injection heq1 with heq1
        injection heq1 with ha hb
        subst hb
        exact hinv
    split at h
    · exact Except.noConfusion h
    · rename_i rec2 st2 heq2
      have hinv2 : StoreInv st2 := by
        split at heq2
        · split at heq2
          · exact Except.noConfusion heq2
          · rename_i a st3 heq
            injection heq2 with heq2
            injection heq2 with ha hb
            subst hb
            exact getOrCreate_inv st1 _ _ a st3 heq hinv1
        · injection heq2 with heq2
          injection heq2 with ha hb
          subst hb
          exact hinv1
      split at h
      · exact Except.noConfusion h
      · rename_i desc st3 heq3
        dsimp only at h
        injection h with h
        injection h with ha hb
        subst hb
        exact anonymizeText_inv st2 raw.description names desc st3 heq3 hinv2

theorem anonymizeAll_inv (now : Nat) (names : List String)
    (raws : List RawTransaction) :
    ∀ (st : AnonymizationStore) (index : Nat)
      (ts : List Transaction) (st' : AnonymizationStore),
      anonymizeAll now names st index raws = .ok (ts, st') →
      StoreInv st → StoreInv st' := by
  induction raws with
  | nil =>
    intro st index ts st' h hinv
    injection h with h
    injection h with ha hb
    subst hb
    exact hinv
  | cons raw rest ih =>
    intro st index ts st' h hinv
    unfold anonymizeAll at h
    split at h
    · exact Except.noConfusion h
    · rename_i t st1 heq1
      split at h
      · exact Except.noConfusion h
      · rename_i ts2 st2 heq2
        injection h with h
        injection h with ha hb
        subst hb
        exact ih st1 (index + 1) ts2 st2 heq2
          (anonymizeOne_inv now names st index raw t st1 heq1 hinv)

/-- C6 (amended): invertibility holds exactly when the produced anonymized
values determine their originals (no two mappings share an anonymized value
with different originals) — then every mapping's anonymized value reverse-
looks-up to its original; and `clear()` empties the reverse map
unconditionally. -/
theorem C6_amended (now : Nat) (raw : List RawTransaction)
    (data : AnonymizedData) (st : AnonymizationStore)
    (hok : anonymizeTransactions now raw = .ok (data, st))
    (huniq : ∀ m ∈ data.mappings, ∀ m' ∈ data.mappings,
      m.anonymized = m'.anonymized → m.original = m'.original) :
    (∀ m ∈ data.mappings, getOriginal st m.anonymized = some m.original) ∧
    (∀ (st0 : AnonymizationStore) (s : String),
      getOriginal (AnonymizationStore.clear st0) s = none) := by
  constructor
  · intro m hm
    unfold anonymizeTransactions at hok
    dsimp only at hok
    split at hok
    · exact Except.noConfusion hok
    · rename_i ts stF heq
      injection hok with hok
      injection hok with ha hb
      subst ha hb
      dsimp only [getAllMappings] at hm
      have hinv0 : StoreInv ({} : AnonymizationStore) := by
        intro x hx
        simp at hx
      have hinv := anonymizeAll_inv now _ raw {} 0 ts stF heq hinv0
      obtain ⟨m', hm', hanon, hrev⟩ := hinv m hm
      have horig : m.original = m'.original :=
        huniq m hm m' hm' hanon.symm
      unfold getOriginal
      rw [hrev, horig]
  · intro st0 s
    rfl

def c6rawA : RawTransaction :=
  { date := "2024-01-01", description := "", amount := 5, currency := "EUR",
    recipientIban := some "DEAA9999" }

def c6rawB : RawTransaction :=
  { date := "2024-01-01", description := "", amount := 5, currency := "EUR",
    recipientIban := some "DEBB9999" }

/-- C6 (counterexample): two distinct IBANs anonymize to the same masked
string "DE**9999"; the second overwrites the reverse-map entry, so the
first mapping's anonymized value no longer looks up to its original. -/
theorem C6_counterexample :
    ((anonymizeTransactions 0 [c6rawA, c6rawB]).map (fun r =>
      (r.1.mappings.map (fun m => (m.original, m.anonymized)),
       getOriginal r.2 "DE**9999")) =
      .ok ([("DEAA9999", "DE**9999"), ("DEBB9999", "DE**9999")],
           some "DEBB9999")) ∧
    some "DEBB9999" ≠ some "DEAA9999" := by
  exact ⟨by rfl, by decide⟩

def c6res : Except String (AnonymizedData × AnonymizationStore) :=
  anonymizeTransactions 0 [c6rawA]

def c6data : AnonymizedData := ((c6res.toOption).map (fun r => r.1)).getD ⟨[], []⟩

def c6store : AnonymizationStore := ((c6res.toOption).map (fun r => r.2)).getD {}

/-- C6 witness: the amended invertibility applied to a one-IBAN batch, whose
single mapping trivially satisfies the uniqueness hypothesis. -/
theorem C6_witness :
    (∀ m ∈ c6data.mappings, ∀ m' ∈ c6data.mappings,
      m.anonymized = m'.anonymized → m.original = m'.original) ∧
    getOriginal c6store "DE**9999" = some "DEAA9999" := by
  refine ⟨by decide, ?_⟩
  exact (C6_amended 0 [c6rawA] c6data c6store (by rfl) (by decide)).1
    ⟨"DEAA9999", "DE**9999", "iban"⟩ (by decide)

end FinKit
